import Mathlib

/-!
Verification development for the jlc-schematic-helper repository.

The development shallowly embeds the two core subsystems:
* the netlist normalization pipeline
  (`parseNetlist` from the text parser, `parseJlcJsonNetlist` from the
  structured JSON dialect parser), and
* the WebSocket RPC transport
  (`WsBridge`, the server in `src/unnamed/part_005`, and `BridgeClient`,
  the peer-side state machine in `src/unnamed/part_001`),

and proves the specification's testable properties about them.

JavaScript strings are modelled as Lean `String`s (lists of `Char`s);
the regular expressions used by the parsers are translated into
equivalent explicit character-list matchers, with the deterministic
backtracking behaviour of each pattern worked out by hand and recorded
in comments next to each matcher.
-/

namespace JlcHelper

/-- The whitespace class of JavaScript's `\s` / `String.prototype.trim`
(restricted to the code points that can actually occur in the inputs
handled here: ASCII whitespace, NBSP and the BOM). -/
def isJsWs (c : Char) : Bool :=
  c = ' ' || c = '\t' || c = '\n' || c = '\r' ||
  c.toNat = 11 || c.toNat = 12 || c.toNat = 160 || c.toNat = 65279

/-- JavaScript line terminators (these are the characters that `.` in a
non-`s` regex does not match). -/
def isLineTerm (c : Char) : Bool :=
  c = '\n' || c = '\r' || c.toNat = 8232 || c.toNat = 8233

def trimLeftCs (l : List Char) : List Char := l.dropWhile (isJsWs ·)

def trimRightCs (l : List Char) : List Char :=
  (l.reverse.dropWhile (isJsWs ·)).reverse

/-- `String.prototype.trim` on the character list. -/
def jsTrimCs (l : List Char) : List Char := trimRightCs (trimLeftCs l)

def jsTrim (s : String) : String := ⟨jsTrimCs s.data⟩

/-- `String.prototype.toUpperCase` on one character (ASCII range; the
inputs this system uppercases are reference designators, pin labels and
net names, which are ASCII). -/
def upChar (c : Char) : Char :=
  if 97 ≤ c.toNat ∧ c.toNat ≤ 122 then Char.ofNat (c.toNat - 32) else c

/-- `String.prototype.toUpperCase`. -/
def jsToUpper (s : String) : String := ⟨s.data.map upChar⟩

/-! ## Netlist data model and shared normalization

Embeds `packages/mcp-server/src/netlist/parseNetlist.ts` (the text
parser, `src/unnamed/part_004`) and the helpers it shares verbatim with
`parseJlcJsonNetlist.ts` (`normalizeNetName`, `normalizeRef`,
`normalizePin` are duplicated, identical, in both files; they are
defined once here). -/

/-- `NetlistEndpoint` from `parseNetlist.ts`. -/
structure NetlistEndpoint where
  ref : String
  pin : String
deriving DecidableEq, Repr

/-- Surrounding-quote stripping step of `normalizeNetName`:
`replace(/^"(.*)"$/, '$1')`.  The regex matches exactly when the string
starts and ends with `"` (two distinct characters) and the interior
contains no line terminator (`.` does not match those); on a match the
two quotes are removed. -/
def stripWrappingQuotes (l : List Char) : List Char :=
  if 2 ≤ l.length ∧ l.head? = some '"' ∧ l.getLast? = some '"' ∧
      ((l.drop 1).dropLast.all fun c => ¬ isLineTerm c) then
    (l.drop 1).dropLast
  else l

/-- `normalizeNetName`: trim, strip one pair of wrapping quotes,
uppercase. -/
def normalizeNetName (s : String) : String :=
  jsToUpper ⟨stripWrappingQuotes (jsTrimCs s.data)⟩

/-- `normalizeRef`: trim then uppercase. -/
def normalizeRef (s : String) : String := jsToUpper (jsTrim s)

/-- `normalizePin`: trim then uppercase. -/
def normalizePin (s : String) : String := jsToUpper (jsTrim s)

def isAsciiUpperAlpha (c : Char) : Bool := 'A' ≤ c ∧ c ≤ 'Z'
def isAsciiLowerAlpha (c : Char) : Bool := 'a' ≤ c ∧ c ≤ 'z'
def isAsciiAlpha (c : Char) : Bool := isAsciiUpperAlpha c || isAsciiLowerAlpha c
def isAsciiDigit (c : Char) : Bool := '0' ≤ c ∧ c ≤ '9'

/-- The `\w` / `[A-Za-z0-9_]` class of the regexes below. -/
def isWordChar (c : Char) : Bool := isAsciiAlpha c || isAsciiDigit c || c = '_'

/-- `looksLikeRef`: `/^[A-Z]{1,6}\d+[A-Z]?$/.test(token.toUpperCase())`.
The regex is deterministic on this alphabet: the letter block must be
the full maximal letter run (1..6 letters; shortening it leaves a
letter where a digit is required), the digit block the full maximal
digit run, and at most one trailing letter may remain. -/
def looksLikeRefCs (l : List Char) : Bool :=
  let a := l.takeWhile isAsciiUpperAlpha
  let r1 := l.drop a.length
  let d := r1.takeWhile isAsciiDigit
  let r2 := r1.drop d.length
  decide (1 ≤ a.length) && decide (a.length ≤ 6) && decide (1 ≤ d.length) &&
    (match r2 with
     | [] => true
     | [c] => isAsciiUpperAlpha c
     | _ => false)

def looksLikeRef (token : String) : Bool :=
  looksLikeRefCs (token.data.map upChar)

/-- `stripPunct`: `token.replace(/^[\s,;()]+|[\s,;()]+$/g, '')` — strip
leading and trailing characters of the class `[\s,;()]`. -/
def isPunctStrip (c : Char) : Bool := isJsWs c || c = ',' || c = ';' || c = '(' || c = ')'

def stripPunctCs (l : List Char) : List Char :=
  ((l.dropWhile isPunctStrip).reverse.dropWhile isPunctStrip).reverse

/-- Split a character list into the maximal runs separated by JS
whitespace (the effect of `.split(/\s+/)` followed by dropping empty
pieces, which the source does via `.filter(Boolean)` after
`stripPunct`). -/
def splitOnWs (l : List Char) : List (List Char) :=
  (l.foldr
    (fun c acc =>
      if isJsWs c then [] :: acc
      else
        match acc with
        | [] => [[c]]
        | w :: ws => (c :: w) :: ws)
    []).filter (fun w => !w.isEmpty)

/-- The shared tokenization of `extractRefPinPair` /
`extractRefPinInlineTokens`:
`line.replace(/[,\t]/g, ' ').split(/\s+/).map(stripPunct).filter(Boolean)`. -/
def lineTokens (l : List Char) : List (List Char) :=
  ((splitOnWs (l.map fun c => if c = ',' || c = '\t' then ' ' else c)).map
    stripPunctCs).filter (fun w => !w.isEmpty)

/-- One token of `extractRefPinInlineTokens`:
`/^([A-Za-z]{1,6}\d+[A-Za-z]?)[-.:]([A-Za-z0-9_]+)$/`.
Deterministic: the separator characters `-`, `.`, `:` belong neither to
the ref alphabet nor to the pin alphabet, so a matching token contains
exactly one of them, the ref part is the maximal letter run (1..6)
followed by the maximal digit run and at most one further letter, and
the pin part is a nonempty run of word characters reaching the end. -/
def inlineSep (c : Char) : Bool := c = '-' || c = '.' || c = ':'

def inlineTokenMatch (t : List Char) : Option NetlistEndpoint :=
  let a := t.takeWhile isAsciiAlpha
  if 1 ≤ a.length ∧ a.length ≤ 6 then
    let r1 := t.drop a.length
    let d := r1.takeWhile isAsciiDigit
    if 1 ≤ d.length then
      let finish : List Char → List Char → Option NetlistEndpoint := fun refCs pinCs =>
        if pinCs ≠ [] ∧ pinCs.all isWordChar then
          some ⟨normalizeRef ⟨refCs⟩, normalizePin ⟨pinCs⟩⟩
        else none
      match r1.drop d.length with
      | c :: c2 :: rs =>
        if isAsciiAlpha c ∧ inlineSep c2 then finish (a ++ d ++ [c]) rs
        else if inlineSep c then finish (a ++ d) (c2 :: rs)
        else none
      | _ => none
    else none
  else none

/-- `extractRefPinInlineTokens`. -/
def extractRefPinInlineTokens (l : List Char) : List NetlistEndpoint :=
  (lineTokens l).filterMap inlineTokenMatch

/-- `extractRefPinPair` (its inner `tryPair`). -/
def tryPair (refToken pinToken : Option (List Char)) : Option NetlistEndpoint :=
  match refToken, pinToken with
  | some r, some p =>
    let ref := normalizeRef ⟨r⟩
    let pin := normalizePin ⟨p⟩
    if looksLikeRef ref then (if pin = "" then none else some ⟨ref, pin⟩) else none
  | _, _ => none

/-- `extractRefPinPair`. -/
def extractRefPinPair (l : List Char) : Option NetlistEndpoint :=
  let tokens := lineTokens l
  if (tokens.head?.map fun t => (t.map upChar) == "*PIN*".data).getD false then
    tryPair tokens[1]? tokens[2]?
  else if tokens.length = 2 then tryPair tokens[0]? tokens[1]?
  else none

/-- Case-insensitive character-list prefix test (uppercases both
sides, faithful to a `/.../i` regex over this alphabet). -/
def ciHasPrefixAt (pat : List Char) (l : List Char) : Bool :=
  (l.take pat.length).map upChar = pat.map upChar

/-- Substring test: `String.prototype.includes` (case-sensitive). -/
def hasSubList (needle hay : List Char) : Bool :=
  hay.tails.any fun t => needle.isPrefixOf t

def jsIncludes (hay needle : String) : Bool := hasSubList needle.data hay.data

/-- Tail of `parseKiCadSexprNetStart`'s regex after the lazy gap:
`\(name\s+("?)([^")]+)\1\)\s*\)?\s*$` matched against the full suffix
`cs`.  Backtracking analysis: `\s+` takes the maximal whitespace run
(shrinking it only prepends whitespace to the name without changing the
failing delimiter); if a quote opens, the name is the maximal run free
of `"` and `)` and must be closed by `"` then `)`; otherwise the name
must be closed by `)` directly; after that at most one extra `)` and
whitespace may remain. -/
def kicadNameTail (cs : List Char) : Option String :=
  if ciHasPrefixAt "(name".data cs then
    let rest := cs.drop 5
    let w := rest.takeWhile isJsWs
    if 1 ≤ w.length then
      let r2 := rest.drop w.length
      let finish : List Char → List Char → Option String := fun body after =>
        if body = [] then none
        else
          let t1 := after.dropWhile isJsWs
          let t2 := if t1.head? = some ')' then t1.tail else t1
          if t2.dropWhile isJsWs = [] then some ⟨body⟩ else none
      match r2 with
      | '"' :: r3 =>
        let body := r3.takeWhile fun c => c ≠ '"' && c ≠ ')'
        let after := r3.drop body.length
        if after.head? = some '"' ∧ after.tail.head? = some ')' then
          finish body after.tail.tail
        else none
      | _ =>
        let body := r2.takeWhile fun c => c ≠ '"' && c ≠ ')'
        let after := r2.drop body.length
        if after.head? = some ')' then finish body after.tail else none
    else none
  else none

/-- Leftmost-match search used for the lazy `.*?` gap: try the tail
pattern at every start position, left to right. -/
def searchKicadName : List Char → Option String
  | [] => none
  | c :: rest =>
    match kicadNameTail (c :: rest) with
    | some s => some s
    | none => if isLineTerm c then none else searchKicadName rest

/-- `parseKiCadSexprNetStart`:
`/^\s*\(net\b.*?\(name\s+("?)([^")]+)\1\)\s*\)?\s*$/i` applied to the
already-trimmed line. -/
def parseKiCadSexprNetStart (line : String) : Option String :=
  let cs := line.data
  if ciHasPrefixAt "(net".data cs &&
      ((cs.drop 4).head?.map fun c => !isWordChar c).getD true then
    searchKicadName (cs.drop 4)
  else none

/-- One field of `parseKiCadSexprNode`'s regexes
(`/\(ref\s+("?)([^")\s]+)\1\)/i` and the same with `pin`), anchored at
the current position.  The value class additionally excludes
whitespace. -/
def kicadFieldAt (tag : List Char) (cs : List Char) : Option String :=
  if ciHasPrefixAt tag cs then
    let rest := cs.drop tag.length
    let w := rest.takeWhile isJsWs
    if 1 ≤ w.length then
      let r2 := rest.drop w.length
      match r2 with
      | '"' :: r3 =>
        let body := r3.takeWhile fun c => c ≠ '"' && c ≠ ')' && !isJsWs c
        let after := r3.drop body.length
        if body ≠ [] ∧ after.head? = some '"' ∧ after.tail.head? = some ')' then
          some ⟨body⟩
        else none
      | _ =>
        let body := r2.takeWhile fun c => c ≠ '"' && c ≠ ')' && !isJsWs c
        let after := r2.drop body.length
        if body ≠ [] ∧ after.head? = some ')' then some ⟨body⟩ else none
    else none
  else none

/-- Leftmost unanchored search for a field pattern. -/
def searchKicadField (tag : List Char) : List Char → Option String
  | [] => none
  | c :: rest =>
    match kicadFieldAt tag (c :: rest) with
    | some s => some s
    | none => searchKicadField tag rest

/-- `parseKiCadSexprNode`. -/
def parseKiCadSexprNode (line : String) : Option NetlistEndpoint :=
  match searchKicadField "(ref".data line.data, searchKicadField "(pin".data line.data with
  | some r, some p => some ⟨normalizeRef r, normalizePin p⟩
  | _, _ => none

/-- `/^\s*\*NET\*\s+(.+?)\s*$/i` on the trimmed line: prefix `*NET*`
(case-insensitive), at least one whitespace character, then a nonempty
capture with surrounding whitespace excluded (the lazy `(.+?)\s*$`
captures up to the last non-whitespace character). -/
def padsNetMatch (line : String) : Option String :=
  let cs := line.data
  if ciHasPrefixAt "*NET*".data cs then
    let rest := cs.drop 5
    if (rest.head?.map isJsWs).getD false then
      let name := trimRightCs (rest.dropWhile isJsWs)
      if name = [] ∨ ¬ (name.all fun c => ¬ isLineTerm c) then none else some ⟨name⟩
    else none
  else none

/-- `/^\s*\$NET\s+(.+?)\s*$/i` on the trimmed line. -/
def allegroNetMatch (line : String) : Option String :=
  let cs := line.data
  if ciHasPrefixAt "$NET".data cs then
    let rest := cs.drop 4
    if (rest.head?.map isJsWs).getD false then
      let name := trimRightCs (rest.dropWhile isJsWs)
      if name = [] ∨ ¬ (name.all fun c => ¬ isLineTerm c) then none else some ⟨name⟩
    else none
  else none

/-- `/^\s*NET\s+("?)([^"]+)\1\s*$/i` on the trimmed line.  The capture
class excludes `"` entirely, so in the unquoted branch the whole
remainder must be quote-free; in the quoted branch the remainder is
exactly `"..."` with a nonempty quote-free interior. -/
def plainNetMatch (line : String) : Option String :=
  let cs := line.data
  if ciHasPrefixAt "NET".data cs then
    let rest := cs.drop 3
    if (rest.head?.map isJsWs).getD false then
      let r2 := rest.dropWhile isJsWs
      match r2 with
      | '"' :: r3 =>
        if r3.getLast? = some '"' ∧ r3.dropLast ≠ [] ∧
            (r3.dropLast.all fun c => c ≠ '"') then
          some ⟨r3.dropLast⟩
        else none
      | _ => if r2 ≠ [] ∧ (r2.all fun c => c ≠ '"') then some ⟨r2⟩ else none
    else none
  else none

/-- `/^\s*\*END\*\s*$/i` on the trimmed line. -/
def isEndMarkerPads (line : String) : Bool :=
  line.data.map upChar = "*END*".data

/-- `/^\s*\$ENDNETS\b/i` on the trimmed line. -/
def isEndMarkerAllegro (line : String) : Bool :=
  ciHasPrefixAt "$ENDNETS".data line.data &&
    ((line.data.drop 8).head?.map fun c => !isWordChar c).getD true

/-- `String(text ?? '').split(/\r?\n/)`: split at `\n`, with an
immediately preceding `\r` consumed by the separator. -/
def splitJsLines (s : String) : List String :=
  ((s.data.splitOn '\n').map fun l =>
    if l.getLast? = some '\r' then l.dropLast else l).map fun l => (⟨l⟩ : String)

/-- One net entry of the `netsByKey` insertion-ordered map: the
first-seen (trimmed) display name plus the insertion-ordered endpoint
map keyed by `` `${ref}.${pin}` ``. -/
structure NetEntry where
  name : String
  endpoints : List (String × NetlistEndpoint)
deriving DecidableEq, Repr

/-- The `netsByKey` JavaScript `Map`, insertion-ordered. -/
abbrev NetMap := List (String × NetEntry)

def netMapFind (m : NetMap) (key : String) : Option NetEntry :=
  (m.find? fun p => p.1 = key).map Prod.snd

/-- `ensureNet` (identical in both parser files): look up the
normalized key; on a miss append a fresh entry remembering the trimmed
original name. -/
def ensureNet (name : String) (m : NetMap) : NetMap :=
  let key := normalizeNetName name
  if (netMapFind m key).isSome then m
  else m ++ [(key, { name := jsTrim name, endpoints := [] })]

/-- `Map.prototype.set` on an insertion-ordered association list:
replace in place, or append. -/
def mapSet (k : String) (v : NetlistEndpoint) (l : List (String × NetlistEndpoint)) :
    List (String × NetlistEndpoint) :=
  if l.any fun p => p.1 = k then
    l.map fun p => if p.1 = k then (k, v) else p
  else l ++ [(k, v)]

/-- `` net.endpoints.set(`${ep.ref}.${ep.pin}`, ep) `` preceded by
`ensureNet(currentNet)`. -/
def addEndpoint (currentNet : String) (ep : NetlistEndpoint) (m : NetMap) : NetMap :=
  let m := ensureNet currentNet m
  let key := normalizeNetName currentNet
  m.map fun p =>
    if p.1 = key then
      (p.1, { p.2 with endpoints := mapSet (ep.ref ++ "." ++ ep.pin) ep p.2.endpoints })
    else p

/-- `ParsedNetlist` from `parseNetlist.ts`; the `nets` record is the
insertion-ordered key/value list. -/
structure ParsedNetlist where
  ok : Bool
  formatGuess : Option String
  warnings : List String
  nets : List (String × List NetlistEndpoint)
deriving DecidableEq, Repr

/-- One iteration of the `for (const raw of lines)` loop of
`parseNetlist`; the state is `(netsByKey, currentNet)`. -/
def parseNetlistLine (isKiCadSexpr : Bool) (state : NetMap × Option String)
    (raw : String) : NetMap × Option String :=
  let m := state.1
  let currentNet := state.2
  let line := jsTrim raw
  if line = "" then state
  else if isKiCadSexpr then
    match parseKiCadSexprNetStart line with
    | some netName => (ensureNet netName m, some netName)
    | none =>
      match currentNet with
      | some cn =>
        match parseKiCadSexprNode line with
        | some node => (addEndpoint cn node m, currentNet)
        | none => state
      | none => state
  else
    match padsNetMatch line with
    | some n => (ensureNet n m, some n)
    | none =>
    match allegroNetMatch line with
    | some n => (ensureNet n m, some n)
    | none =>
    match plainNetMatch line with
    | some n => (ensureNet n m, some n)
    | none =>
    if isEndMarkerPads line || isEndMarkerAllegro line then (m, none)
    else
      match currentNet with
      | none => state
      | some cn =>
        let m := ensureNet cn m
        match extractRefPinPair line.data with
        | some pair => (addEndpoint cn pair m, currentNet)
        | none =>
          ((extractRefPinInlineTokens line.data).foldl
            (fun acc ep => addEndpoint cn ep acc) m, currentNet)

/-- Render the final `nets` record and warnings (lines 270-281 of the
text parser). -/
def netMapOutput (m : NetMap) : List (String × List NetlistEndpoint) :=
  m.map fun p => (normalizeNetName p.2.name, p.2.endpoints.map Prod.snd)

def netsEndpointCount (nets : List (String × List NetlistEndpoint)) : Nat :=
  (nets.map fun p => p.2.length).sum

/-- `parseNetlist` from `parseNetlist.ts`. -/
def parseNetlist (text : String) : ParsedNetlist :=
  let lines := splitJsLines text
  let joined := String.intercalate "\n" (lines.take 200)
  let isKiCadSexpr := jsIncludes joined "(net" && jsIncludes joined "(node"
  let isPads := jsIncludes joined "*PADS-PCB*" || jsIncludes (jsToUpper joined) "*NET*"
  let isAllegro := jsIncludes (jsToUpper joined) "$NETS"
  let formatGuess : Option String :=
    if isKiCadSexpr then some "kicad-sexp"
    else if isPads then some "pads"
    else if isAllegro then some "allegro"
    else none
  let final := lines.foldl (parseNetlistLine isKiCadSexpr) ([], none)
  let nets := netMapOutput final.1
  let warnings :=
    (if nets.length = 0 then ["No nets parsed from netlist text."] else []) ++
    (if 0 < nets.length ∧ netsEndpointCount nets = 0 then
      ["Nets were detected but no endpoints (Ref.Pin) could be parsed."]
     else [])
  { ok := warnings.isEmpty, formatGuess := formatGuess, warnings := warnings,
    nets := nets }

/-! ## Structured (JSON) dialect parser

Embeds `packages/mcp-server/src/netlist/parseJlcJsonNetlist.ts`.  JSON
values are modelled by the `Json` inductive; `JSON.parse` is the host
platform's parser, so `parseJlcJsonNetlist` is embedded from the parsed
value onward (the leading `trim` / `startsWith('{')` / `JSON.parse`
steps produce such a value or make the function return `undefined`).
Object field lists carry the enumeration order of `Object.entries`. -/

inductive Json where
  | null
  | bool (b : Bool)
  | num (n : Int)
  | str (s : String)
  | arr (elems : List Json)
  | obj (fields : List (String × Json))
deriving Repr

/-- `asRecord`: accepts only non-null non-array objects. -/
def asRecord : Json → Option (List (String × Json))
  | .obj fields => some fields
  | _ => none

/-- `asString` from `parseJlcJsonNetlist.ts`: strings pass through,
finite numbers are stringified. -/
def jlcAsString : Json → Option String
  | .str s => some s
  | .num n => some (toString n)
  | _ => none

/-- Property access `o.k` on a parsed JSON object (`undefined` when the
key is absent). -/
def jsonGet (fields : List (String × Json)) (k : String) : Option Json :=
  (fields.find? fun p => p.1 = k).map Prod.snd

def jsonGetStr (fields : List (String × Json)) (k : String) : Option String :=
  (jsonGet fields k).bind jlcAsString

/-- `JlcNetlistPin`. -/
structure JlcNetlistPin where
  pin : String
  net : String
  name : Option String
deriving DecidableEq, Repr

/-- `JlcNetlistComponent`. -/
structure JlcNetlistComponent where
  ref : String
  value : Option String
  footprintName : Option String
  lcsc : Option String
  manufacturer : Option String
  mpn : Option String
  datasheetUrl : Option String
  jlcpcbPartClass : Option String
  pins : List JlcNetlistPin
  props : List (String × String)
deriving DecidableEq, Repr

/-- `ParsedJlcJsonNetlist`. -/
structure ParsedJlcJsonNetlist where
  ok : Bool
  warnings : List String
  components : List JlcNetlistComponent
  nets : List (String × List NetlistEndpoint)
deriving DecidableEq, Repr

/-- One iteration of the pin loop
(`for (const [pinId, pinRaw] of Object.entries(pinInfoMap))`, lines
108-123 of `parseJlcJsonNetlist.ts`): skip non-record pins, record the
pin, and add an endpoint unless the `net` field is absent or trims to
empty. -/
def jlcProcessPin (ref : String) (acc : List JlcNetlistPin × NetMap)
    (entry : String × Json) : List JlcNetlistPin × NetMap :=
  match asRecord entry.2 with
  | none => acc
  | some pinObj =>
    let net := (jsonGetStr pinObj "net").getD ""
    let number := ((jsonGetStr pinObj "number").or (jsonGetStr pinObj "Pin Number")).getD entry.1
    let name := jsonGetStr pinObj "name"
    let pin := normalizePin number
    let pins := acc.1 ++ [{ pin := pin, net := net, name := name }]
    if jsTrim net = "" then (pins, acc.2)
    else
      let m := ensureNet net acc.2
      (pins, addEndpoint net { ref := ref, pin := pin } m)

/-- One iteration of the component loop of `parseJlcJsonNetlist`. -/
def jlcProcessComponent (acc : List JlcNetlistComponent × NetMap)
    (entry : String × Json) : List JlcNetlistComponent × NetMap :=
  match asRecord entry.2 with
  | none => acc
  | some comp =>
    let propsRaw := (asRecord ((jsonGet comp "props").getD .null)).getD []
    let pinInfoMap := (asRecord ((jsonGet comp "pinInfoMap").getD .null)).getD []
    let designator :=
      ((jsonGetStr propsRaw "Designator").or (jsonGetStr propsRaw "designator")).getD
        (if entry.1 ≠ "" then "U?_" ++ entry.1 else "U?")
    let ref := normalizeRef designator
    let value := (jsonGetStr propsRaw "Value").or (jsonGetStr propsRaw "Name")
    let footprintName :=
      (jsonGetStr propsRaw "FootprintName").or (jsonGetStr propsRaw "Supplier Footprint")
    let lcsc := jsonGetStr propsRaw "Supplier Part"
    let manufacturer := jsonGetStr propsRaw "Manufacturer"
    let mpn := (jsonGetStr propsRaw "Manufacturer Part").or (jsonGetStr propsRaw "DeviceName")
    let datasheetUrl := jsonGetStr propsRaw "Datasheet"
    let jlcpcbPartClass := jsonGetStr propsRaw "JLCPCB Part Class"
    let pinsNets := pinInfoMap.foldl (jlcProcessPin ref) ([], acc.2)
    let props := propsRaw.filterMap fun p => (jlcAsString p.2).map fun s => (p.1, s)
    (acc.1 ++
      [{ ref := ref, value := value, footprintName := footprintName, lcsc := lcsc,
         manufacturer := manufacturer, mpn := mpn, datasheetUrl := datasheetUrl,
         jlcpcbPartClass := jlcpcbPartClass, pins := pinsNets.1, props := props }],
     pinsNets.2)

/-- `parseJlcJsonNetlist`, from the parsed JSON root value onward;
`none` is the source's `undefined` ("dialect not applicable"). -/
def parseJlcJsonNetlist (root : Json) : Option ParsedJlcJsonNetlist :=
  match asRecord root with
  | none => none
  | some rootObj =>
    match asRecord ((jsonGet rootObj "components").getD .null) with
    | none => none
    | some componentsObj =>
      let compsNets := componentsObj.foldl jlcProcessComponent ([], [])
      let nets := netMapOutput compsNets.2
      let warnings :=
        (if compsNets.1.length = 0 then ["No components parsed from JSON netlist."] else []) ++
        (if nets.length = 0 then ["No nets parsed from JSON netlist."] else []) ++
        (if 0 < nets.length ∧ netsEndpointCount nets = 0 then
          ["Nets were detected but no endpoints (Ref.Pin) could be parsed."]
         else [])
      some { ok := warnings.isEmpty, warnings := warnings,
             components := compsNets.1, nets := nets }

/-! ## WsBridge — the transport server (`src/unnamed/part_005`)

The server is embedded as an event-driven state machine: every
JavaScript callback (socket events, timer firings, `call` invocations)
becomes one event, processed atomically — faithful to the
single-threaded event-loop execution model.  Promise settlement is
modelled with first-settlement-wins semantics (`settleOnce`), which is
the platform behaviour of `resolve`/`reject`.  A `callTimeout id` /
`watchdogFire sid` event can only fire while the corresponding timer is
armed; every code path that removes a `PendingCall` also clears its
timer (and the close handler clears the handshake watchdog), so the
model guards those events by pending membership / the armed flag. -/

namespace WsBridge

/-- Handshake watchdog duration of `#handleConnection`
(`setTimeout(..., 5_000)`, line 180 of `src/unnamed/part_005`). -/
def handshakeTimeoutMs : Nat := 5000

/-- Default `timeoutMs` of `WsBridge.call`. -/
def defaultCallTimeoutMs : Nat := 30000

/-- Keepalive probe interval (`setInterval(..., 15_000)`). -/
def keepAliveIntervalMs : Nat := 15000

/-- Timeout passed to the keepalive `ping` call. -/
def keepAlivePingTimeoutMs : Nat := 5000

/-- Why a call's promise settled. -/
inductive SettleReason where
  /-- `pending.resolve(msg.result)` on a result Response. -/
  | resolved
  /-- `pending.reject(err)` on an error Response. -/
  | remoteError
  /-- The per-call `setTimeout` fired (`Bridge call timeout`). -/
  | timedOut
  /-- The `ws.send` callback reported an error. -/
  | sendFailed
  /-- The socket close handler ran (`Bridge disconnected`). -/
  | disconnected
  /-- `WsBridge.close()` ran (`Bridge closed`). -/
  | bridgeClosed
deriving DecidableEq, Repr

/-- Per-socket handshake bookkeeping of `#handleConnection` (the local
`handshaked` flag and the watchdog timer). -/
structure Conn where
  sid : Nat
  handshaked : Bool
  watchdogArmed : Bool
  watchdogDelayMs : Nat
deriving DecidableEq, Repr

/-- Inbound frame on a socket, after the `JSON.parse` /
schema-validation steps of the message handler. -/
inductive SrvMsg where
  /-- `JSON.parse` threw: the frame is ignored. -/
  | notJson
  /-- Valid JSON matching `HelloMessageSchema`. -/
  | hello
  /-- Valid JSON matching `ResponseMessageSchema`. -/
  | response (id : String) (isError : Bool)
  /-- Any other valid JSON (fails both schemas where tried). -/
  | otherJson
deriving DecidableEq, Repr

/-- The state of a `WsBridge` instance. -/
structure SrvState where
  /-- `#socket`: the sole active peer socket, if any. -/
  active : Option Nat
  /-- The sockets whose `#handleConnection` handlers are live. -/
  conns : List Conn
  /-- Keys of the `#pending` map. -/
  pending : List String
  /-- The settlements performed so far (`id`, reason); a promise
  settles at most once, later `resolve`/`reject` calls are no-ops. -/
  settled : List (String × SettleReason)
  /-- `ws.close(code, reason)` calls issued so far. -/
  closes : List (Nat × Nat × String)
  /-- `#keepAliveTimer` present. -/
  keepAliveTimer : Bool
deriving DecidableEq, Repr

def initSrv : SrvState :=
  { active := none, conns := [], pending := [], settled := [], closes := [],
    keepAliveTimer := false }

/-- The events the bridge reacts to. -/
inductive SrvEvent where
  /-- The `connection` event of the `WebSocketServer`. -/
  | connOpen (sid : Nat)
  /-- A `message` event on socket `sid`. -/
  | wsMessage (sid : Nat) (m : SrvMsg)
  /-- The `close` event of socket `sid`. -/
  | wsClose (sid : Nat) (code : Nat) (reason : String)
  /-- The handshake watchdog of socket `sid` fired. -/
  | watchdogFire (sid : Nat)
  /-- `WsBridge.call` ran with fresh id `id`; `openOk` is whether
  `#socket` exists with `readyState === OPEN`, `sendOk` whether the
  `ws.send` callback reported success. -/
  | callReq (id : String) (openOk : Bool) (sendOk : Bool)
  /-- The per-call timeout of `id` fired. -/
  | callTimeout (id : String)
  /-- `WsBridge.close()` was invoked. -/
  | bridgeClose
deriving DecidableEq, Repr

def settledIds (s : SrvState) : List String := s.settled.map Prod.fst

/-- Settle the promise of `id` (no-op when it already settled). -/
def settleOnce (id : String) (r : SettleReason) (s : SrvState) : SrvState :=
  if id ∈ settledIds s then s else { s with settled := s.settled ++ [(id, r)] }

def connOf (s : SrvState) (sid : Nat) : Option Conn :=
  s.conns.find? fun c => c.sid = sid

/-- The `#handleConnection` message handler for socket `sid`. -/
def srvOnMessage (sid : Nat) (m : SrvMsg) (s : SrvState) : SrvState :=
  match connOf s sid with
  | none => s
  | some c =>
    match m with
    | .notJson => s
    | .hello =>
      if c.handshaked then s  -- fails `ResponseMessageSchema`, ignored
      else
        -- valid Hello: clear the watchdog, mark handshaked, replace any
        -- existing connection, adopt this socket, restart keepalive
        let closedOld :=
          match s.active with
          | some old => [(old, 4000, "Replaced by new connection")]
          | none => []
        { s with
          conns := s.conns.map fun c' =>
            if c'.sid = sid then { c' with handshaked := true, watchdogArmed := false }
            else c',
          keepAliveTimer := true,
          closes := s.closes ++ closedOld,
          active := some sid }
    | .response id isError =>
      if c.handshaked then
        -- `#handleResponse`
        if id ∈ s.pending then
          settleOnce id (if isError then .remoteError else .resolved)
            { s with pending := s.pending.erase id }
        else s
      else
        -- first message is valid JSON but not a Hello
        { s with closes := s.closes ++ [(sid, 4002, "Invalid hello")] }
    | .otherJson =>
      if c.handshaked then s
      else { s with closes := s.closes ++ [(sid, 4002, "Invalid hello")] }

/-- The `#handleConnection` close handler for socket `sid`. -/
def srvOnClose (sid : Nat) (s : SrvState) : SrvState :=
  match connOf s sid with
  | none => s
  | some _ =>
    let s := { s with conns := s.conns.filter fun c => c.sid ≠ sid }
    let s :=
      if s.active = some sid then
        { s with active := none, keepAliveTimer := false }
      else s
    let s := s.pending.foldl (fun acc id => settleOnce id .disconnected acc) s
    { s with pending := [] }

/-- One step of the bridge. -/
def srvStep (s : SrvState) (e : SrvEvent) : SrvState :=
  match e with
  | .connOpen sid =>
    match connOf s sid with
    | some _ => s  -- socket ids are fresh; a duplicate id is ignored
    | none =>
      { s with conns := s.conns ++
          [{ sid := sid, handshaked := false, watchdogArmed := true,
             watchdogDelayMs := handshakeTimeoutMs }] }
  | .wsMessage sid m => srvOnMessage sid m s
  | .wsClose sid _ _ => srvOnClose sid s
  | .watchdogFire sid =>
    match connOf s sid with
    | none => s
    | some c =>
      if c.watchdogArmed then
        let s := { s with conns := s.conns.map fun c' =>
          if c'.sid = sid then { c' with watchdogArmed := false } else c' }
        if c.handshaked then s
        else { s with closes := s.closes ++ [(sid, 4001, "Handshake timeout")] }
      else s
  | .callReq id openOk sendOk =>
    if s.active.isSome ∧ openOk then
      let s :=
        if id ∈ s.pending then s else { s with pending := s.pending ++ [id] }
      if sendOk then s
      else settleOnce id .sendFailed { s with pending := s.pending.erase id }
    else s  -- throws `EDA bridge is not connected`; nothing stored
  | .callTimeout id =>
    if id ∈ s.pending then
      settleOnce id .timedOut { s with pending := s.pending.erase id }
    else s
  | .bridgeClose =>
    let s := { s with keepAliveTimer := false }
    let s := s.pending.foldl (fun acc id => settleOnce id .bridgeClosed acc) s
    let closedActive :=
      match s.active with
      | some a => [(a, 1000, "Bridge closed")]
      | none => []
    { s with pending := [], closes := s.closes ++ closedActive, active := none }

/-- Run the bridge over an event trace from the post-construction
state. -/
def srvRun (events : List SrvEvent) : SrvState := events.foldl srvStep initSrv

/-- The ids of the `callReq` events of a trace. -/
def callIds (events : List SrvEvent) : List String :=
  events.filterMap fun e =>
    match e with
    | .callReq id _ _ => some id
    | _ => none

/-- The settlements a step appends (the step never removes
settlements). -/
def newSettled (s : SrvState) (e : SrvEvent) : List (String × SettleReason) :=
  (srvStep s e).settled.drop s.settled.length

/-- Which settlements an event is allowed to cause, per the claim: a
Response bearing the call's own id, the call's own timeout, its send
failure, or loss of the connection (socket close or bridge shutdown). -/
def settleCause (e : SrvEvent) (p : String × SettleReason) : Prop :=
  match e with
  | .wsMessage _ m =>
    match m with
    | .response id isError =>
      p.1 = id ∧ p.2 = (if isError then .remoteError else .resolved)
    | _ => False
  | .callReq id _ sendOk => p.1 = id ∧ sendOk = false ∧ p.2 = .sendFailed
  | .callTimeout id => p.1 = id ∧ p.2 = .timedOut
  | .wsClose _ _ _ => p.2 = .disconnected
  | .bridgeClose => p.2 = .bridgeClosed
  | _ => False

/-- A sample reachable state: socket 1 handshaked and active, one
outstanding call `"a"`. -/
def srvExample : SrvState :=
  { active := some 1,
    conns := [{ sid := 1, handshaked := true, watchdogArmed := false,
                watchdogDelayMs := handshakeTimeoutMs }],
    pending := ["a"], settled := [], closes := [], keepAliveTimer := true }

/-- A sample state with the replaced socket 1 still open, socket 2
active, and two calls outstanding that were issued on socket 2. -/
def srvExample2 : SrvState :=
  { active := some 2,
    conns := [{ sid := 1, handshaked := true, watchdogArmed := false,
                watchdogDelayMs := handshakeTimeoutMs },
              { sid := 2, handshaked := true, watchdogArmed := false,
                watchdogDelayMs := handshakeTimeoutMs }],
    pending := ["a", "b"], settled := [], closes := [], keepAliveTimer := true }

/-- A sample state in which socket 1 is active and handshaked and a
fresh socket 2 has connected but not yet sent its Hello. -/
def srvExampleHs : SrvState :=
  { active := some 1,
    conns := [{ sid := 1, handshaked := true, watchdogArmed := false,
                watchdogDelayMs := handshakeTimeoutMs },
              { sid := 2, handshaked := false, watchdogArmed := true,
                watchdogDelayMs := handshakeTimeoutMs }],
    pending := ["a"], settled := [], closes := [], keepAliveTimer := true }

end WsBridge

/-! ## BridgeClient — the peer-side state machine (`src/unnamed/part_001`)

Embedded as an event-driven machine over the instance fields the claims
concern (`#connectionState`, `#handshakeOk`, `#lastError`,
`#lastServerRequestAt`, `#lastConnectedAt`, the timers and the
auto-reconnect supervisor fields).  Best-effort bookkeeping with no
bearing on the state machine (`#debugLog`, `#persistRuntime`) is not
tracked.  Environment readings a method makes (`loadBridgeConfig()`,
`loadRuntimeState()`, API availability, and whether a host call throws)
are parameters of the corresponding event.  The two transports'
`onMessage`/`onConnected` callbacks are modelled separately, mirroring
the two handler definitions in `connect()`. -/

namespace BridgeClient

/-- Client handshake watchdog duration
(`#startHandshakeWatchdog`, `setTimeout(..., 8_000)`). -/
def clientHandshakeWatchdogMs : Nat := 8000

/-- `connectTimeoutMs` in `connect()`. -/
def connectTimeoutMs : Nat := 8000

/-- Staleness threshold of `#autoTick` (`age > 60_000`). -/
def staleThresholdMs : Nat := 60000

/-- Initial / re-seeded `#autoBackoffMs`. -/
def autoBackoffBaseMs : Nat := 1500

/-- `#autoMaxBackoffMs`. -/
def autoMaxBackoffMs : Nat := 30000

/-- `Math.min(Math.floor(this.#autoBackoffMs * 1.6), this.#autoMaxBackoffMs)`.
For the magnitudes reachable here (≤ 30000) the IEEE-double computation
`Math.floor(b * 1.6)` agrees with exact arithmetic `⌊8·b/5⌋`: the
rounding error of `b * double(1.6)` is positive and far below the
distance to the next integer. -/
def nextBackoff (b : Nat) : Nat := min (b * 8 / 5) autoMaxBackoffMs

inductive ConnState where
  | disconnected
  | connecting
  | connected
deriving DecidableEq, Repr

inductive Transport where
  /-- `'sys_WebSocket'` -/
  | sysWs
  /-- `'globalWebSocket'` -/
  | globalWs
  /-- `'none'` -/
  | noneAvail
deriving DecidableEq, Repr

/-- An inbound frame, after `JSON.parse` / `isRpcRequest`. -/
inductive ClientMsg where
  | invalidJson
  /-- Valid JSON for which `isRpcRequest` holds. -/
  | request (id method : String)
  /-- Valid JSON that is not an RPC request. -/
  | nonRequest
deriving DecidableEq, Repr

def isRpcRequest : ClientMsg → Bool
  | .request _ _ => true
  | _ => false

/-- The slice of persisted runtime state `connect()` reads
(`loadRuntimeState()`). -/
structure RuntimeLite where
  connectionState : ConnState
  updatedAt : Nat
  lastServerRequestAt : Option Nat
deriving DecidableEq, Repr

/-- Environment readings of one `connect()` invocation. -/
structure ConnectEnv where
  serverUrl : String
  hasSysWs : Bool
  hasGlobalWs : Bool
  runtime : Option RuntimeLite
  /-- `eda.sys_WebSocket.register` threw. -/
  registerFails : Bool
  /-- `new WebSocket(url)` threw. -/
  ctorFails : Bool
deriving DecidableEq, Repr

structure ClientState where
  connectionState : ConnState
  transport : Transport
  handshakeOk : Bool
  lastError : Option String
  lastServerRequestAt : Option Nat
  lastConnectedAt : Option Nat
  /-- `#connectTimer` armed. -/
  connectTimer : Bool
  /-- `#handshakeTimer` armed. -/
  handshakeTimer : Bool
  /-- `#registeredUrl`. -/
  registeredUrl : Option String
  /-- The `cfg.serverUrl` captured by the callbacks of the last
  `connect()` (the messages they format interpolate it). -/
  capturedUrl : String
  /-- `#socket` present (global-WebSocket transport). -/
  socketPresent : Bool
  /-- `#socket.readyState` has left `CONNECTING` (set by `onopen`). -/
  socketOpen : Bool
  /-- `#autoEnabled`. -/
  autoEnabled : Bool
  /-- `#autoOpts` present. -/
  autoOptsPresent : Bool
  /-- `#autoBackoffMs`. -/
  autoBackoffMs : Nat
  /-- `#autoTimer`: delay of the pending supervisor tick, if armed. -/
  autoTimer : Option Nat
deriving DecidableEq, Repr

def initClient : ClientState :=
  { connectionState := .disconnected, transport := .noneAvail, handshakeOk := false,
    lastError := none, lastServerRequestAt := none, lastConnectedAt := none,
    connectTimer := false, handshakeTimer := false, registeredUrl := none,
    capturedUrl := "", socketPresent := false, socketOpen := false,
    autoEnabled := false, autoOptsPresent := false,
    autoBackoffMs := autoBackoffBaseMs, autoTimer := none }

/-- `` `Handshake not confirmed (no server request received). Check server status/logs. (${serverUrl})` `` -/
def handshakeTimeoutMsg (url : String) : String :=
  "Handshake not confirmed (no server request received). Check server status/logs. (" ++
    url ++ ")"

/-- `Math.round(age / 1000)` for natural `age`. -/
def jsRoundDiv1000 (age : Nat) : Nat := (age + 500) / 1000

/-- `` `No server traffic for ${Math.round(age / 1000)}s; reconnecting...` `` -/
def staleMsg (age : Nat) : String :=
  "No server traffic for " ++ toString (jsRoundDiv1000 age) ++ "s; reconnecting..."

/-- `` `Connect timeout after ${connectTimeoutMs}ms (url ${url}). Is the MCP server running and reachable?` `` -/
def connectTimeoutMsg (url : String) : String :=
  "Connect timeout after " ++ toString connectTimeoutMs ++ "ms (url " ++ url ++
    "). Is the MCP server running and reachable?"

def noWsMsg : String := "No WebSocket API available in this EDA environment"

def wsUnavailableMsg : String := "WebSocket is not available in this EDA environment"

/-- `disconnect(opts?)`.  `closeFails` is whether the host close call
threw (`sys_WebSocket.close` inside the `try`). -/
def clientDisconnect (preserve : Bool) (closeFails : Bool) (s : ClientState) : ClientState :=
  let s := { s with connectTimer := false, handshakeTimer := false, handshakeOk := false }
  if s.transport = .sysWs then
    let s :=
      if closeFails then
        { s with lastError := some "SYS_WebSocket.close failed" }
      else s
    let s := { s with connectionState := .disconnected }
    let s := if preserve then s else { s with lastError := none }
    { s with lastServerRequestAt := none }
  else
    let s := { s with socketPresent := false, socketOpen := false }
    let s := if preserve then s else { s with lastError := none }
    { s with lastServerRequestAt := none, connectionState := .disconnected }

/-- `connect(opts)`. -/
def clientConnect (env : ConnectEnv) (now : Nat) (s : ClientState) : ClientState :=
  -- lines 284-286: reset handshake tracking before anything else
  let s := { s with handshakeOk := false, handshakeTimer := false,
                    lastServerRequestAt := none }
  -- lines 288-300: cross-sandbox guard on the persisted runtime state
  let blocked : Bool :=
    match env.runtime with
    | some r =>
      decide (r.connectionState ≠ ConnState.disconnected) &&
        ((decide (r.connectionState = ConnState.connecting) &&
            decide (now - r.updatedAt < 20000)) ||
         (decide (r.connectionState = ConnState.connected) &&
           (match r.lastServerRequestAt with
            | some t => decide (now - t < 30000)
            | none => false)))
    | none => false
  if blocked then s
  else
    -- lines 304-306: transport selection
    let s := { s with transport :=
      if env.hasSysWs then Transport.sysWs
      else if env.hasGlobalWs then Transport.globalWs else Transport.noneAvail }
    -- line 308
    let s := { s with lastError := none }
    if s.transport = .noneAvail then { s with lastError := some noWsMsg }
    else if s.connectionState = .connected ∨ s.connectionState = .connecting then s
    else if s.transport = .sysWs then
      -- the `sys_WebSocket.close` on a URL change is host-side only
      let s := { s with registeredUrl := some env.serverUrl,
                        capturedUrl := env.serverUrl,
                        connectionState := .connecting, connectTimer := true }
      if env.registerFails then
        { s with connectTimer := false, connectionState := .disconnected,
                 lastError := some "SYS_WebSocket.register failed" }
      else s
    else
      -- global WebSocket fallback
      let s := { s with connectionState := .connecting, capturedUrl := env.serverUrl }
      if env.ctorFails then
        { s with connectionState := .disconnected,
                 lastError := some "WebSocket constructor failed" }
      else { s with socketPresent := true, socketOpen := false, connectTimer := true }

/-- The `sys_WebSocket` `onConnected` callback: stop the connect timer,
stamp `lastConnectedAt`, send Hello (a throwing send records an error),
start the handshake watchdog. -/
def sysOnConnected (now : Nat) (helloSendFails : Bool) (s : ClientState) : ClientState :=
  let s := { s with connectTimer := false, lastConnectedAt := some now }
  let s :=
    if helloSendFails then { s with lastError := some "WebSocket send failed" } else s
  { s with handshakeTimer := true }

/-- The global-WebSocket `onopen` handler. -/
def globalOnOpen (now : Nat) (s : ClientState) : ClientState :=
  let s := { s with connectTimer := false, lastConnectedAt := some now,
                    socketOpen := true }
  { s with handshakeTimer := true }

/-- Shared state effect of both message handlers: a frame that is not a
valid RPC request is ignored; a request stamps `lastServerRequestAt`
and, on the first one, confirms the handshake and enters `connected`. -/
def onRequestFrame (m : ClientMsg) (now : Nat) (s : ClientState) : ClientState :=
  if isRpcRequest m then
    let s := { s with lastServerRequestAt := some now }
    if s.handshakeOk then s
    else { s with handshakeOk := true, handshakeTimer := false,
                  connectionState := .connected }
  else s

/-- The `sys_WebSocket` `onMessage` callback. -/
def sysOnMessage (m : ClientMsg) (now : Nat) (s : ClientState) : ClientState :=
  onRequestFrame m now s

/-- The global-WebSocket `onmessage` handler. -/
def globalOnMessage (m : ClientMsg) (now : Nat) (s : ClientState) : ClientState :=
  onRequestFrame m now s

/-- The handshake watchdog callback (`#startHandshakeWatchdog`): only
fires while armed; if the handshake is still unconfirmed it records the
cause and disconnects preserving it. -/
def watchdogFire (closeFails : Bool) (s : ClientState) : ClientState :=
  if s.handshakeTimer then
    let s := { s with handshakeTimer := false }
    if s.handshakeOk then s
    else
      let s := { s with lastError := some (handshakeTimeoutMsg s.capturedUrl) }
      clientDisconnect true closeFails s
  else s

/-- The `sys_WebSocket` connect-timeout callback. -/
def sysConnectTimeoutFire (s : ClientState) : ClientState :=
  if s.connectTimer then
    let s := { s with connectTimer := false }
    if s.connectionState = .connecting then
      { s with lastError := some (connectTimeoutMsg s.capturedUrl),
               connectionState := .disconnected }
    else s
  else s

/-- The global-WebSocket connect-timeout callback (guarded by
`readyState === CONNECTING`). -/
def globalConnectTimeoutFire (s : ClientState) : ClientState :=
  if s.connectTimer then
    let s := { s with connectTimer := false }
    if s.socketPresent ∧ ¬ s.socketOpen then
      { s with lastError := some (connectTimeoutMsg s.capturedUrl),
               socketPresent := false, connectionState := .disconnected }
    else s
  else s

/-- The global-WebSocket `onerror` handler. -/
def globalOnError (s : ClientState) : ClientState :=
  { s with connectTimer := false, handshakeTimer := false, handshakeOk := false,
           lastError := some "WebSocket error" }

/-- The global-WebSocket `onclose` handler. -/
def globalOnClose (code : Nat) (reason : String) (s : ClientState) : ClientState :=
  { s with connectTimer := false, handshakeTimer := false, handshakeOk := false,
           lastError := some ("Disconnected (code " ++ toString code ++
             (if reason = "" then "" else ": " ++ reason) ++ ")"),
           socketPresent := false, socketOpen := false,
           connectionState := .disconnected }

/-- `startAutoConnect`. -/
def startAutoConnect (s : ClientState) : ClientState :=
  { s with autoEnabled := true, autoOptsPresent := true,
           autoBackoffMs := autoBackoffBaseMs, autoTimer := some 0 }

/-- `stopAutoConnect`. -/
def stopAutoConnect (s : ClientState) : ClientState :=
  { s with autoEnabled := false, autoOptsPresent := false, autoTimer := none }

/-- `#scheduleAuto`. -/
def scheduleAuto (ms : Nat) (s : ClientState) : ClientState :=
  if s.autoEnabled then { s with autoTimer := some ms } else s

/-- `#autoTick`: the supervisor tick.  `cfgAutoConnect` is the
`loadBridgeConfig().autoConnect !== false` reading; `env`/`now` feed
the `connect()` it may perform. -/
def autoTick (env : ConnectEnv) (now : Nat) (cfgAutoConnect : Bool)
    (s : ClientState) : ClientState :=
  if ¬ s.autoEnabled then s
  else if ¬ cfgAutoConnect then stopAutoConnect s
  else
    -- staleness check (SYS_WebSocket has no onclose callback);
    -- `lastServerRequestAt.getD 0 ≠ 0` is the JS truthiness test on
    -- `#lastServerRequestAt` (absent or 0 are both falsy)
    let s :=
      if s.connectionState = .connected ∧ s.lastServerRequestAt.getD 0 ≠ 0 ∧
          now - s.lastServerRequestAt.getD 0 > staleThresholdMs then
        let s := { s with
          lastError := some (staleMsg (now - s.lastServerRequestAt.getD 0)) }
        clientDisconnect false false s
      else s
    if s.connectionState = .connected then scheduleAuto 10000 s
    else if s.connectionState = .connecting then scheduleAuto 2000 s
    else if ¬ s.autoOptsPresent then scheduleAuto 10000 s
    else
      let s := clientConnect env now s
      let s := scheduleAuto s.autoBackoffMs s
      { s with autoBackoffMs := nextBackoff s.autoBackoffMs }

/-- All client events. -/
inductive ClientEvent where
  | connectCall (env : ConnectEnv) (now : Nat)
  | sysConnected (now : Nat) (helloSendFails : Bool)
  | sysMessage (m : ClientMsg) (now : Nat)
  | gOpen (now : Nat)
  | gMessage (m : ClientMsg) (now : Nat)
  | gError
  | gClose (code : Nat) (reason : String)
  | sysConnectTimeout
  | gConnectTimeout
  | handshakeWatchdog (closeFails : Bool)
  | userDisconnect (preserve : Bool) (closeFails : Bool)
  | supervisorTick (env : ConnectEnv) (now : Nat) (cfgAutoConnect : Bool)
  | startAuto
  | stopAuto
deriving Repr

/-- One step of the client machine. -/
def clientStep (s : ClientState) (e : ClientEvent) : ClientState :=
  match e with
  | .connectCall env now => clientConnect env now s
  | .sysConnected now helloSendFails => sysOnConnected now helloSendFails s
  | .sysMessage m now => sysOnMessage m now s
  | .gOpen now => globalOnOpen now s
  | .gMessage m now => globalOnMessage m now s
  | .gError => globalOnError s
  | .gClose code reason => globalOnClose code reason s
  | .sysConnectTimeout => sysConnectTimeoutFire s
  | .gConnectTimeout => globalConnectTimeoutFire s
  | .handshakeWatchdog closeFails => watchdogFire closeFails s
  | .userDisconnect preserve closeFails => clientDisconnect preserve closeFails s
  | .supervisorTick env now cfg => autoTick env now cfg s
  | .startAuto => startAutoConnect s
  | .stopAuto => stopAutoConnect s

/-- Iterated supervisor ticks (used to read off the reconnect-delay
sequence). -/
def tickIter (env : ConnectEnv) (n : Nat) (s : ClientState) : ClientState :=
  match n with
  | 0 => s
  | n + 1 => tickIter env n (clientStep s (.supervisorTick env 0 true))

/-- The backoff value after `n` failed reconnect attempts
(`#autoBackoffMs` is seeded at 1500 and stepped by `nextBackoff` after
each attempt); the delay re-armed after attempt `n+1` is
`backoffSeq n`. -/
def backoffSeq : Nat → Nat
  | 0 => autoBackoffBaseMs
  | n + 1 => nextBackoff (backoffSeq n)

/-- An environment in which every connect attempt fails immediately
(no WebSocket API is available), so each supervisor tick is a failed
reconnect attempt. -/
def failEnv : ConnectEnv :=
  { serverUrl := "ws://127.0.0.1:9050", hasSysWs := false, hasGlobalWs := false,
    runtime := none, registerFails := false, ctorFails := false }

/-- An environment in which the sandbox-native transport is available
and registration succeeds. -/
def sysEnv : ConnectEnv :=
  { serverUrl := "ws://127.0.0.1:9050", hasSysWs := true, hasGlobalWs := false,
    runtime := none, registerFails := false, ctorFails := false }

/-- A connected client whose last observed server traffic is stale. -/
def clientStaleState : ClientState :=
  { initClient with
    connectionState := .connected, transport := .sysWs,
    lastServerRequestAt := some 1, lastConnectedAt := some 1,
    autoEnabled := true, autoOptsPresent := true }

/-- A connecting client with an armed handshake watchdog. -/
def clientAwaitingHs : ClientState :=
  { initClient with
    connectionState := .connecting, transport := .sysWs,
    handshakeTimer := true, capturedUrl := "ws://127.0.0.1:9050" }

/-- Closed form of the client state after a failed reconnect attempt
under `failEnv`, with backoff `b` and last re-armed delay `d`. -/
def failTickState (b d : Nat) : ClientState :=
  { initClient with
    transport := .noneAvail, lastError := some noWsMsg,
    autoEnabled := true, autoOptsPresent := true,
    autoBackoffMs := b, autoTimer := some d }

end BridgeClient

/-! ## Well-formedness predicates for the netlist claims -/

/-- The `` `${ref}.${pin}` `` dedup key. -/
def epKey (ep : NetlistEndpoint) : String := ep.ref ++ "." ++ ep.pin

/-- A string already in uppercase form. -/
def UpperFixed (s : String) : Prop := jsToUpper s = s

/-- Established for every entry of `netsByKey` in both parsers: its
endpoint map has distinct keys, each key is the `ref.pin` key of its
value, and the stored refs/pins are already uppercased. -/
def EntryWf (e : NetEntry) : Prop :=
  (e.endpoints.map Prod.fst).Nodup ∧
    ∀ p ∈ e.endpoints, p.1 = epKey p.2 ∧ UpperFixed p.2.ref ∧ UpperFixed p.2.pin

/-- Established for `netsByKey` in both parsers: distinct keys, each
key the normalization of its entry's display name (hence uppercased),
and well-formed entries. -/
def NetMapWf (m : NetMap) : Prop :=
  (m.map Prod.fst).Nodup ∧
    ∀ p ∈ m, p.1 = normalizeNetName p.2.name ∧ UpperFixed p.1 ∧ EntryWf p.2

/-- The de-duplication shape of a final `nets` record: net names
case-insensitively unique, and within one net no two endpoints sharing
the same uppercased `(ref, pin)` pair. -/
def NetsOutputWf (nets : List (String × List NetlistEndpoint)) : Prop :=
  ((nets.map fun p => jsToUpper p.1).Nodup) ∧
    ∀ p ∈ nets, (p.2.map fun e => (jsToUpper e.ref, jsToUpper e.pin)).Nodup

/-- A structured-dialect input with two components, each with one pin
whose `net` field is `"VCC"` (the spec's structured-parser test
vector). -/
def jlcSampleRoot : Json :=
  .obj [("components", .obj [
    ("c1", .obj [("props", .obj [("Designator", .str "R1")]),
                 ("pinInfoMap", .obj [("p1", .obj [("number", .str "1"),
                                                   ("net", .str "VCC")])])]),
    ("c2", .obj [("props", .obj [("Designator", .str "R2")]),
                 ("pinInfoMap", .obj [("p1", .obj [("number", .str "1"),
                                                   ("net", .str "VCC")])])])])]

/-- The parse result of `jlcSampleRoot`. -/
def jlcSampleResult : ParsedJlcJsonNetlist :=
  (parseJlcJsonNetlist jlcSampleRoot).getD
    { ok := false, warnings := [], components := [], nets := [] }

/-- A pin-info entry whose `net` field is absent. -/
def jlcPinNoNet : String × Json := ("p3", .obj [("number", .str "3")])

/-- A pin-info entry whose `net` field is the empty string. -/
def jlcPinEmptyNet : String × Json :=
  ("p4", .obj [("number", .str "4"), ("net", .str "")])

/-- The `net` field reading of the pin loop
(`asString(pinObj.net) ?? ''` on a possibly-non-record pin value). -/
def jlcPinNetField (pinRaw : Json) : String :=
  (((asRecord pinRaw).bind fun pinObj => jsonGetStr pinObj "net").getD "")

end JlcHelper

namespace JlcHelper

/-! # Theorems

First the string-normalization lemmas, then the netlist-parser
invariants, then the transport-server and client state-machine
results.  The theorems named `claimN_*` settle the corresponding
specification claims. -/

theorem toNat_ofNat_of_lt (n : Nat) (h : n < 55296) : (Char.ofNat n).toNat = n := by
  have hv : n.isValidChar := Or.inl h
  simp [Char.ofNat, hv, Char.ofNatAux, Char.toNat]
  rfl

theorem upChar_idem (c : Char) : upChar (upChar c) = upChar c := by
  unfold upChar
  by_cases h : 97 ≤ c.toNat ∧ c.toNat ≤ 122
  · have hlt : c.toNat - 32 < 55296 := by omega
    rw [if_pos h, toNat_ofNat_of_lt _ hlt,
      if_neg (by omega : ¬ (97 ≤ c.toNat - 32 ∧ c.toNat - 32 ≤ 122))]
  · rw [if_neg h, if_neg h]

theorem map_upChar_idem (l : List Char) :
    l.map (upChar ∘ upChar) = l.map upChar := by
  induction l with
  | nil => simp
  | cons c cs ih => simp [Function.comp, upChar_idem, ih]

theorem jsToUpper_idem (s : String) : jsToUpper (jsToUpper s) = jsToUpper s := by
  unfold jsToUpper
  simp [map_upChar_idem]

theorem dropWhile_idem (p : Char → Bool) (l : List Char) :
    (l.dropWhile p).dropWhile p = l.dropWhile p := by
  induction l with
  | nil => simp
  | cons c cs ih =>
    by_cases h : p c
    · simp [List.dropWhile, h, ih]
    · simp [List.dropWhile, h]

theorem dropWhile_of_isPrefix (p : Char → Bool) (x z : List Char)
    (hx : x.dropWhile p = x) (hz : z <+: x) : z.dropWhile p = z := by
  cases z with
  | nil => simp
  | cons a as =>
    obtain ⟨t, ht⟩ := hz
    have hx' : x = a :: (as ++ t) := by rw [← ht]; simp
    by_cases h : p a
    · exfalso
      rw [hx', List.dropWhile_cons, if_pos h] at hx
      have hlen := congrArg List.length hx
      simp only [List.length_cons, List.length_append] at hlen
      have hle := (List.dropWhile_sublist (p := p) (l := as ++ t)).length_le
      simp only [List.length_append] at hle
      omega
    · simp [List.dropWhile_cons, h]

theorem trimRight_isPrefix (l : List Char) : trimRightCs l <+: l := by
  unfold trimRightCs
  have h := List.dropWhile_suffix (l := l.reverse) (p := (isJsWs ·))
  have := List.IsSuffix.reverse h
  simpa using this

theorem trimLeft_idem (l : List Char) : trimLeftCs (trimLeftCs l) = trimLeftCs l := by
  unfold trimLeftCs
  simp [dropWhile_idem]

theorem trimRight_idem (l : List Char) : trimRightCs (trimRightCs l) = trimRightCs l := by
  unfold trimRightCs
  simp [dropWhile_idem]

theorem trimLeft_of_trimRight (l : List Char) (h : trimLeftCs l = l) :
    trimLeftCs (trimRightCs l) = trimRightCs l :=
  dropWhile_of_isPrefix _ l _ h (trimRight_isPrefix l)

theorem jsTrimCs_idem (l : List Char) : jsTrimCs (jsTrimCs l) = jsTrimCs l := by
  unfold jsTrimCs
  rw [trimLeft_of_trimRight _ (trimLeft_idem l), trimRight_idem]

theorem jsTrim_idem (s : String) : jsTrim (jsTrim s) = jsTrim s := by
  unfold jsTrim
  simp [jsTrimCs_idem]

theorem normalizeNetName_upperFixed (s : String) :
    UpperFixed (normalizeNetName s) := by
  unfold UpperFixed normalizeNetName
  exact jsToUpper_idem _

theorem normalizeNetName_trim (s : String) :
    normalizeNetName (jsTrim s) = normalizeNetName s := by
  unfold normalizeNetName jsTrim
  simp [jsTrimCs_idem]

theorem normalizeRef_upperFixed (s : String) : UpperFixed (normalizeRef s) :=
  jsToUpper_idem _

theorem normalizePin_upperFixed (s : String) : UpperFixed (normalizePin s) :=
  jsToUpper_idem _

/-! ### Preservation of the `netsByKey` invariants -/

theorem netMapFind_none (m : NetMap) (key : String)
    (h : ¬ (netMapFind m key).isSome) : key ∉ m.map Prod.fst := by
  induction m with
  | nil => simp
  | cons q qs ih =>
    unfold netMapFind at h ih
    by_cases hq : q.1 = key
    · exact absurd (by simp [List.find?_cons, hq]) h
    · intro hmem
      rcases List.mem_map.mp hmem with ⟨p, hp, hfst⟩
      rcases List.mem_cons.mp hp with rfl | hp'
      · exact hq hfst
      · exact ih (by simpa [List.find?_cons, hq] using h)
          (List.mem_map.mpr ⟨p, hp', hfst⟩)

theorem ensureNet_wf (name : String) (m : NetMap) (h : NetMapWf m) :
    NetMapWf (ensureNet name m) := by
  unfold ensureNet
  by_cases hf : (netMapFind m (normalizeNetName name)).isSome
  · simpa [hf] using h
  · simp only [hf, if_false, Bool.false_eq_true]
    have hnot := netMapFind_none m (normalizeNetName name) hf
    constructor
    · rw [List.map_append]
      simp only [List.map_cons, List.map_nil]
      exact List.nodup_append.mpr ⟨h.1, List.nodup_singleton _,
        by simpa [List.disjoint_singleton] using hnot⟩
    · intro p hp
      rcases List.mem_append.mp hp with hold | hnew
      · exact h.2 p hold
      · have hp' : p = (normalizeNetName name, { name := jsTrim name, endpoints := [] }) := by
          simpa using hnew
        subst hp'
        refine ⟨?_, normalizeNetName_upperFixed _, by simp [EntryWf]⟩
        simp [normalizeNetName_trim]

theorem mapSet_wf (k : String) (v : NetlistEndpoint)
    (l : List (String × NetlistEndpoint))
    (hk : k = epKey v) (hvr : UpperFixed v.ref) (hvp : UpperFixed v.pin)
    (h1 : (l.map Prod.fst).Nodup)
    (h2 : ∀ p ∈ l, p.1 = epKey p.2 ∧ UpperFixed p.2.ref ∧ UpperFixed p.2.pin) :
    ((mapSet k v l).map Prod.fst).Nodup ∧
      ∀ p ∈ mapSet k v l, p.1 = epKey p.2 ∧ UpperFixed p.2.ref ∧ UpperFixed p.2.pin := by
  unfold mapSet
  by_cases hmem : l.any fun p => p.1 = k
  · simp only [hmem, if_true]
    have hkeys : (l.map fun p => if p.1 = k then (k, v) else p).map Prod.fst =
        l.map Prod.fst := by
      rw [List.map_map]
      apply List.map_congr_left
      intro p _
      by_cases hpk : p.1 = k
      · simp [hpk]
      · simp [hpk]
    refine ⟨by rw [hkeys]; exact h1, ?_⟩
    intro p hp
    obtain ⟨q, hq, hfq⟩ := List.mem_map.mp hp
    by_cases hqk : q.1 = k
    · rw [← hfq]
      simp only [hqk, if_true]
      exact ⟨hk, hvr, hvp⟩
    · rw [← hfq]
      simp only [hqk, if_false]
      exact h2 q hq
  · simp only [hmem, if_false, Bool.false_eq_true]
    have hnot : k ∉ l.map Prod.fst := by
      intro hmem'
      obtain ⟨p, hp, hfst⟩ := List.mem_map.mp hmem'
      exact hmem (List.any_eq_true.mpr ⟨p, hp, by simp [hfst]⟩)
    constructor
    · rw [List.map_append]
      simp only [List.map_cons, List.map_nil]
      exact List.nodup_append.mpr ⟨h1, List.nodup_singleton _,
        by simpa [List.disjoint_singleton] using hnot⟩
    · intro p hp
      rcases List.mem_append.mp hp with hold | hnew
      · exact h2 p hold
      · have hp' : p = (k, v) := by simpa using hnew
        subst hp'
        exact ⟨hk, hvr, hvp⟩

theorem addEndpoint_wf (cn : String) (ep : NetlistEndpoint) (m : NetMap)
    (h : NetMapWf m) (hr : UpperFixed ep.ref) (hp : UpperFixed ep.pin) :
    NetMapWf (addEndpoint cn ep m) := by
  unfold addEndpoint
  have h1 := ensureNet_wf cn m h
  constructor
  · have hkeys : ((ensureNet cn m).map fun p =>
        if p.1 = normalizeNetName cn then
          (p.1, { p.2 with endpoints := mapSet (ep.ref ++ "." ++ ep.pin) ep p.2.endpoints })
        else p).map Prod.fst = (ensureNet cn m).map Prod.fst := by
      rw [List.map_map]
      apply List.map_congr_left
      intro p _
      by_cases hpk : p.1 = normalizeNetName cn
      · simp [hpk]
      · simp [hpk]
    rw [hkeys]
    exact h1.1
  · intro p hpmem
    obtain ⟨q, hq, hfq⟩ := List.mem_map.mp hpmem
    obtain ⟨hq1, hq2, hq3⟩ := h1.2 q hq
    by_cases hqk : q.1 = normalizeNetName cn
    · rw [← hfq]
      simp only [hqk, if_true]
      have hset := mapSet_wf (ep.ref ++ "." ++ ep.pin) ep q.2.endpoints rfl hr hp
        hq3.1 hq3.2
      refine ⟨?_, normalizeNetName_upperFixed cn, hset.1, hset.2⟩
      rw [← hqk]
      exact hq1
    · rw [← hfq]
      simp only [hqk, if_false]
      exact ⟨hq1, hq2, hq3⟩

theorem foldl_addEndpoint_wf (cn : String) (eps : List NetlistEndpoint) (m : NetMap)
    (h : NetMapWf m)
    (hall : ∀ ep ∈ eps, UpperFixed ep.ref ∧ UpperFixed ep.pin) :
    NetMapWf (eps.foldl (fun acc ep => addEndpoint cn ep acc) m) := by
  induction eps generalizing m with
  | nil => simpa using h
  | cons e es ih =>
    simp only [List.foldl_cons]
    exact ih _ (addEndpoint_wf cn e m h (hall e (by simp)).1 (hall e (by simp)).2)
      (fun ep hep => hall ep (by simp [hep]))

/-! ### Every endpoint the text parser produces is already uppercased -/

theorem tryPair_norm (a b : Option (List Char)) (ep : NetlistEndpoint)
    (h : tryPair a b = some ep) : UpperFixed ep.ref ∧ UpperFixed ep.pin := by
  unfold tryPair at h
  dsimp only at h
  repeat' split at h
  all_goals first
    | (rw [Option.some_inj] at h
       subst h
       exact ⟨normalizeRef_upperFixed _, normalizePin_upperFixed _⟩)
    | simp at h

theorem extractRefPinPair_norm (l : List Char) (ep : NetlistEndpoint)
    (h : extractRefPinPair l = some ep) : UpperFixed ep.ref ∧ UpperFixed ep.pin := by
  unfold extractRefPinPair at h
  dsimp only at h
  repeat' split at h
  all_goals first
    | exact tryPair_norm _ _ _ h
    | simp at h

theorem inlineTokenMatch_norm (t : List Char) (ep : NetlistEndpoint)
    (h : inlineTokenMatch t = some ep) : UpperFixed ep.ref ∧ UpperFixed ep.pin := by
  unfold inlineTokenMatch at h
  dsimp only at h
  repeat' split at h
  all_goals first
    | (rw [Option.some_inj] at h
       subst h
       exact ⟨normalizeRef_upperFixed _, normalizePin_upperFixed _⟩)
    | simp at h

theorem extractRefPinInlineTokens_norm (l : List Char) (ep : NetlistEndpoint)
    (h : ep ∈ extractRefPinInlineTokens l) : UpperFixed ep.ref ∧ UpperFixed ep.pin := by
  unfold extractRefPinInlineTokens at h
  obtain ⟨t, _, ht⟩ := List.mem_filterMap.mp h
  exact inlineTokenMatch_norm t ep ht

theorem parseKiCadSexprNode_norm (line : String) (ep : NetlistEndpoint)
    (h : parseKiCadSexprNode line = some ep) : UpperFixed ep.ref ∧ UpperFixed ep.pin := by
  unfold parseKiCadSexprNode at h
  split at h
  · rw [Option.some_inj] at h
    subst h
    exact ⟨normalizeRef_upperFixed _, normalizePin_upperFixed _⟩
  · simp at h

/-! ### The parser loops preserve the invariants -/

theorem parseNetlistLine_wf (k : Bool) (st : NetMap × Option String) (raw : String)
    (h : NetMapWf st.1) : NetMapWf (parseNetlistLine k st raw).1 := by
  unfold parseNetlistLine
  dsimp only
  repeat' split
  all_goals first
    | exact h
    | exact ensureNet_wf _ _ h
    | exact addEndpoint_wf _ _ _ h
        (parseKiCadSexprNode_norm _ _ (by assumption)).1
        (parseKiCadSexprNode_norm _ _ (by assumption)).2
    | exact addEndpoint_wf _ _ _ (ensureNet_wf _ _ h)
        (extractRefPinPair_norm _ _ (by assumption)).1
        (extractRefPinPair_norm _ _ (by assumption)).2
    | exact foldl_addEndpoint_wf _ _ _ (ensureNet_wf _ _ h)
        (fun ep hep => extractRefPinInlineTokens_norm _ ep hep)

theorem foldl_parseNetlistLine_wf (k : Bool) (lines : List String)
    (st : NetMap × Option String) (h : NetMapWf st.1) :
    NetMapWf (lines.foldl (parseNetlistLine k) st).1 := by
  induction lines generalizing st with
  | nil => exact h
  | cons l ls ih =>
    simp only [List.foldl_cons]
    exact ih _ (parseNetlistLine_wf k st l h)

theorem jlcProcessPin_wf (ref : String) (acc : List JlcNetlistPin × NetMap)
    (entry : String × Json) (h : NetMapWf acc.2) (href : UpperFixed ref) :
    NetMapWf (jlcProcessPin ref acc entry).2 := by
  unfold jlcProcessPin
  dsimp only
  repeat' split
  all_goals first
    | exact h
    | exact addEndpoint_wf _ _ _ (ensureNet_wf _ _ h) href (normalizePin_upperFixed _)

theorem foldl_jlcProcessPin_wf (ref : String) (entries : List (String × Json))
    (acc : List JlcNetlistPin × NetMap) (h : NetMapWf acc.2) (href : UpperFixed ref) :
    NetMapWf (entries.foldl (jlcProcessPin ref) acc).2 := by
  induction entries generalizing acc with
  | nil => exact h
  | cons e es ih =>
    simp only [List.foldl_cons]
    exact ih _ (jlcProcessPin_wf ref acc e h href)

theorem jlcProcessComponent_wf (acc : List JlcNetlistComponent × NetMap)
    (entry : String × Json) (h : NetMapWf acc.2) :
    NetMapWf (jlcProcessComponent acc entry).2 := by
  unfold jlcProcessComponent
  dsimp only
  repeat' split
  all_goals first
    | exact h
    | exact foldl_jlcProcessPin_wf _ _ _ h (normalizeRef_upperFixed _)

theorem foldl_jlcProcessComponent_wf (entries : List (String × Json))
    (acc : List JlcNetlistComponent × NetMap) (h : NetMapWf acc.2) :
    NetMapWf (entries.foldl jlcProcessComponent acc).2 := by
  induction entries generalizing acc with
  | nil => exact h
  | cons e es ih =>
    simp only [List.foldl_cons]
    exact ih _ (jlcProcessComponent_wf acc e h)

/-! ### Well-formed maps render to well-formed `nets` records -/

theorem endpoints_upper_nodup (l : List (String × NetlistEndpoint))
    (h1 : (l.map Prod.fst).Nodup)
    (h2 : ∀ p ∈ l, p.1 = epKey p.2 ∧ UpperFixed p.2.ref ∧ UpperFixed p.2.pin) :
    ((l.map Prod.snd).map fun e => (jsToUpper e.ref, jsToUpper e.pin)).Nodup := by
  rw [List.map_map]
  have hpair : List.Pairwise (fun a b : String × NetlistEndpoint => a.1 ≠ b.1) l :=
    (List.pairwise_map.mp h1)
  have : List.Pairwise (fun a b : String × NetlistEndpoint =>
      ((fun e => (jsToUpper e.ref, jsToUpper e.pin)) ∘ Prod.snd) a ≠
        ((fun e => (jsToUpper e.ref, jsToUpper e.pin)) ∘ Prod.snd) b) l := by
    refine List.Pairwise.imp_of_mem ?_ hpair
    intro a b ha hb hne
    obtain ⟨hka, hra, hpa⟩ := h2 a ha
    obtain ⟨hkb, hrb, hpb⟩ := h2 b hb
    intro heq
    apply hne
    simp only [Function.comp, Prod.mk.injEq] at heq
    rw [hra, hrb, hpa, hpb] at heq
    rw [hka, hkb]
    unfold epKey
    rw [heq.1, heq.2]
  exact List.pairwise_map.mpr this

theorem netMapOutput_wf (m : NetMap) (h : NetMapWf m) :
    NetsOutputWf (netMapOutput m) := by
  constructor
  · have hkeys : (netMapOutput m).map (fun p => jsToUpper p.1) = m.map Prod.fst := by
      unfold netMapOutput
      rw [List.map_map]
      apply List.map_congr_left
      intro p hp
      obtain ⟨hk, hu, _⟩ := h.2 p hp
      simp only [Function.comp]
      rw [← hk]
      exact hu
    rw [hkeys]
    exact h.1
  · intro q hq
    unfold netMapOutput at hq
    obtain ⟨p, hp, hfp⟩ := List.mem_map.mp hq
    obtain ⟨_, _, he1, he2⟩ := h.2 p hp
    rw [← hfp]
    exact endpoints_upper_nodup p.2.endpoints he1 he2

theorem netMapOutput_keys_upper (m : NetMap) (_h : NetMapWf m) :
    ∀ p ∈ netMapOutput m, jsToUpper p.1 = p.1 := by
  intro p hp
  unfold netMapOutput at hp
  obtain ⟨q, _, hfq⟩ := List.mem_map.mp hp
  rw [← hfq]
  exact normalizeNetName_upperFixed _

theorem emptyNetMap_wf : NetMapWf ([] : NetMap) := by
  constructor
  · simp
  · intro p hp
    simp at hp

theorem parseNetlist_map_wf (text : String) :
    NetMapWf ((splitJsLines text).foldl
      (parseNetlistLine (jsIncludes (String.intercalate "\n" ((splitJsLines text).take 200))
        "(net" && jsIncludes (String.intercalate "\n" ((splitJsLines text).take 200)) "(node"))
      ([], none)).1 :=
  foldl_parseNetlistLine_wf _ _ _ emptyNetMap_wf

theorem parseNetlist_nets_wf (text : String) : NetsOutputWf (parseNetlist text).nets := by
  have h := parseNetlist_map_wf text
  exact netMapOutput_wf _ h

theorem parseNetlist_nets_upper (text : String) :
    ∀ p ∈ (parseNetlist text).nets, jsToUpper p.1 = p.1 := by
  have h := parseNetlist_map_wf text
  exact netMapOutput_keys_upper _ h

theorem parseJlcJsonNetlist_nets_wf (root : Json) (r : ParsedJlcJsonNetlist)
    (h : parseJlcJsonNetlist root = some r) :
    NetsOutputWf r.nets ∧ ∀ p ∈ r.nets, jsToUpper p.1 = p.1 := by
  unfold parseJlcJsonNetlist at h
  dsimp only at h
  split at h
  · simp at h
  · split at h
    · simp at h
    · rw [Option.some_inj] at h
      subst h
      exact ⟨netMapOutput_wf _ (foldl_jlcProcessComponent_wf _ _ emptyNetMap_wf),
        netMapOutput_keys_upper _ (foldl_jlcProcessComponent_wf _ _ emptyNetMap_wf)⟩

/-- **C7** (corrected), counterexample to the original claim: the text
parser's result does not retain the first-seen original casing of a net
name — parsing `*NET* Gnd` yields the net key `"GND"`, not `"Gnd"`. -/
theorem claim7_counterexample :
    ((parseNetlist "*NET* Gnd\nR1 2").nets.map Prod.fst = ["GND"]) ∧ "GND" ≠ "Gnd" := by
  constructor
  · decide
  · decide

/-- **C7** (amended): for every parse result of either dialect, within
one net no two endpoints share the same uppercased `(ref, pin)` pair
and net names are case-insensitively unique; however the net names in
the result are the uppercased normalized forms (the first-seen original
casing is kept only internally, not in the result keys). -/
theorem claim7_dedup_invariants :
    (∀ text : String,
      NetsOutputWf (parseNetlist text).nets ∧
        ∀ p ∈ (parseNetlist text).nets, jsToUpper p.1 = p.1) ∧
    (∀ (root : Json) (r : ParsedJlcJsonNetlist), parseJlcJsonNetlist root = some r →
      NetsOutputWf r.nets ∧ ∀ p ∈ r.nets, jsToUpper p.1 = p.1) :=
  ⟨fun text => ⟨parseNetlist_nets_wf text, parseNetlist_nets_upper text⟩,
   fun root r h => parseJlcJsonNetlist_nets_wf root r h⟩

/-- Witness for C7's amended claim at concrete inputs. -/
theorem claim7_dedup_invariants_witness :
    (NetsOutputWf (parseNetlist "*NET* GND\nR1 2\nr1 2\nC1 1").nets ∧
      ∀ p ∈ (parseNetlist "*NET* GND\nR1 2\nr1 2\nC1 1").nets, jsToUpper p.1 = p.1) ∧
    NetsOutputWf jlcSampleResult.nets :=
  ⟨claim7_dedup_invariants.1 "*NET* GND\nR1 2\nr1 2\nC1 1",
   (claim7_dedup_invariants.2 jlcSampleRoot jlcSampleResult (by decide)).1⟩

/-- **C8**: the text parser on
`*NET* GND\nR1 2\nC1 1\n*NET* VCC\nU1 1\n` yields exactly
`GND ↦ [R1.2, C1.1]`, `VCC ↦ [U1.1]` with no warnings. -/
theorem claim8_text_parser_example :
    parseNetlist "*NET* GND\nR1 2\nC1 1\n*NET* VCC\nU1 1\n" =
      { ok := true, formatGuess := some "pads", warnings := [],
        nets := [("GND", [⟨"R1", "2"⟩, ⟨"C1", "1"⟩]), ("VCC", [⟨"U1", "1"⟩])] } := by
  decide

/-- **C9**: the structured parser on two components each carrying one
pin with `net: "VCC"` yields the single net `VCC` with both endpoints;
and, in general, a pin whose `net` field is absent or trims to empty
contributes no endpoint: the pin-loop step leaves the net map
untouched. -/
theorem claim9_structured_dialect :
    ((parseJlcJsonNetlist jlcSampleRoot).map fun r => r.nets) =
      some [("VCC", [⟨"R1", "1"⟩, ⟨"R2", "1"⟩])] ∧
    ∀ (ref : String) (acc : List JlcNetlistPin × NetMap) (entry : String × Json),
      jsTrim (jlcPinNetField entry.2) = "" →
        (jlcProcessPin ref acc entry).2 = acc.2 := by
  constructor
  · decide
  · intro ref acc entry hnet
    unfold jlcProcessPin
    dsimp only
    unfold jlcPinNetField at hnet
    split
    · rfl
    · rename_i x pinObj heq
      rw [heq, Option.some_bind] at hnet
      split
      · rfl
      · rename_i hcond
        exact absurd hnet hcond

/-- Witness for C9 at concrete pins with absent and empty `net`. -/
theorem claim9_structured_dialect_witness :
    (jlcProcessPin "R2" ([], []) jlcPinNoNet).2 = ([] : NetMap) ∧
      (jlcProcessPin "R2" ([], []) jlcPinEmptyNet).2 = ([] : NetMap) :=
  ⟨claim9_structured_dialect.2 "R2" ([], []) jlcPinNoNet (by decide),
   claim9_structured_dialect.2 "R2" ([], []) jlcPinEmptyNet (by decide)⟩

/-! ### WsBridge: promise settlement and pending-map lemmas -/

namespace WsBridge

theorem settleOnce_cases (id : String) (r : SettleReason) (s : SrvState) :
    (settleOnce id r s).settled = s.settled ∨
      (settleOnce id r s).settled = s.settled ++ [(id, r)] := by
  unfold settleOnce
  split
  · exact Or.inl rfl
  · exact Or.inr rfl

theorem settleOnce_pending (id : String) (r : SettleReason) (s : SrvState) :
    (settleOnce id r s).pending = s.pending := by
  unfold settleOnce
  split <;> rfl

theorem settleOnce_active (id : String) (r : SettleReason) (s : SrvState) :
    (settleOnce id r s).active = s.active := by
  unfold settleOnce
  split <;> rfl

theorem settleOnce_conns (id : String) (r : SettleReason) (s : SrvState) :
    (settleOnce id r s).conns = s.conns := by
  unfold settleOnce
  split <;> rfl

theorem settleOnce_closes (id : String) (r : SettleReason) (s : SrvState) :
    (settleOnce id r s).closes = s.closes := by
  unfold settleOnce
  split <;> rfl

theorem settleOnce_nodup (id : String) (r : SettleReason) (s : SrvState)
    (h : (settledIds s).Nodup) : (settledIds (settleOnce id r s)).Nodup := by
  unfold settleOnce
  split
  · exact h
  · rename_i hnot
    unfold settledIds at *
    rw [List.map_append]
    simp only [List.map_cons, List.map_nil]
    exact List.nodup_append.mpr ⟨h, List.nodup_singleton _,
      by simpa [List.disjoint_singleton] using hnot⟩

theorem settleOnce_settled_mono (id : String) (r : SettleReason) (s : SrvState)
    (p : String × SettleReason) (h : p ∈ s.settled) : p ∈ (settleOnce id r s).settled := by
  unfold settleOnce
  split
  · exact h
  · exact List.mem_append_left _ h

theorem settleOnce_mem_self (id : String) (r : SettleReason) (s : SrvState)
    (h : id ∉ settledIds s) : (id, r) ∈ (settleOnce id r s).settled := by
  unfold settleOnce
  rw [if_neg h]
  simp

theorem settleOnce_settledIds_sub (id id' : String) (r : SettleReason) (s : SrvState)
    (h : id' ∈ settledIds (settleOnce id r s)) : id' ∈ settledIds s ∨ id' = id := by
  unfold settleOnce at h
  split at h
  · exact Or.inl h
  · unfold settledIds at h
    rw [List.map_append] at h
    rcases List.mem_append.mp h with h1 | h2
    · exact Or.inl h1
    · simp at h2
      exact Or.inr h2

theorem foldSettle_settled_append (ids : List String) (r : SettleReason) (s : SrvState) :
    ∃ l, (ids.foldl (fun acc id => settleOnce id r acc) s).settled = s.settled ++ l ∧
      ∀ p ∈ l, p.2 = r := by
  induction ids generalizing s with
  | nil => exact ⟨[], by simp, by simp⟩
  | cons i is ih =>
    simp only [List.foldl_cons]
    obtain ⟨l, hl, hall⟩ := ih (settleOnce i r s)
    rcases settleOnce_cases i r s with hc | hc
    · exact ⟨l, by rw [hl, hc], hall⟩
    · refine ⟨(i, r) :: l, ?_, ?_⟩
      · rw [hl, hc]
        simp
      · intro p hp
        rcases List.mem_cons.mp hp with rfl | hp'
        · rfl
        · exact hall p hp'

theorem foldSettle_pending (ids : List String) (r : SettleReason) (s : SrvState) :
    (ids.foldl (fun acc id => settleOnce id r acc) s).pending = s.pending := by
  induction ids generalizing s with
  | nil => rfl
  | cons i is ih => simp only [List.foldl_cons]; rw [ih, settleOnce_pending]

theorem foldSettle_active (ids : List String) (r : SettleReason) (s : SrvState) :
    (ids.foldl (fun acc id => settleOnce id r acc) s).active = s.active := by
  induction ids generalizing s with
  | nil => rfl
  | cons i is ih => simp only [List.foldl_cons]; rw [ih, settleOnce_active]

theorem foldSettle_closes (ids : List String) (r : SettleReason) (s : SrvState) :
    (ids.foldl (fun acc id => settleOnce id r acc) s).closes = s.closes := by
  induction ids generalizing s with
  | nil => rfl
  | cons i is ih => simp only [List.foldl_cons]; rw [ih, settleOnce_closes]

theorem foldSettle_nodup (ids : List String) (r : SettleReason) (s : SrvState)
    (h : (settledIds s).Nodup) :
    (settledIds (ids.foldl (fun acc id => settleOnce id r acc) s)).Nodup := by
  induction ids generalizing s with
  | nil => exact h
  | cons i is ih =>
    simp only [List.foldl_cons]
    exact ih _ (settleOnce_nodup i r s h)

theorem foldSettle_mem (ids : List String) (r : SettleReason) (s : SrvState)
    (id : String) (hmem : id ∈ ids) (hnot : id ∉ settledIds s) :
    (id, r) ∈ (ids.foldl (fun acc id => settleOnce id r acc) s).settled := by
  induction ids generalizing s with
  | nil => simp at hmem
  | cons i is ih =>
    simp only [List.foldl_cons]
    rcases List.mem_cons.mp hmem with rfl | hmem'
    · have h1 := settleOnce_mem_self id r s hnot
      obtain ⟨l, hl, _⟩ := foldSettle_settled_append is r (settleOnce id r s)
      rw [hl]
      exact List.mem_append_left _ h1
    · by_cases hid : id = i
      · subst hid
        have h1 := settleOnce_mem_self id r s hnot
        obtain ⟨l, hl, _⟩ := foldSettle_settled_append is r (settleOnce id r s)
        rw [hl]
        exact List.mem_append_left _ h1
      · apply ih _ hmem'
        intro hc
        rcases settleOnce_settledIds_sub i id r s hc with h1 | h2
        · exact hnot h1
        · exact hid h2

/-- Every step only appends settlements, and each appended settlement
is caused by the event in one of the allowed ways. -/
theorem srvStep_settled_append (s : SrvState) (e : SrvEvent) :
    ∃ l, (srvStep s e).settled = s.settled ++ l ∧ ∀ p ∈ l, settleCause e p := by
  cases e with
  | connOpen sid =>
    unfold srvStep
    dsimp only
    split
    · exact ⟨[], by simp, by simp⟩
    · exact ⟨[], by simp, by simp⟩
  | wsMessage sid m =>
    cases m with
    | notJson =>
      unfold srvStep srvOnMessage
      dsimp only
      split
      · exact ⟨[], by simp, by simp⟩
      · exact ⟨[], by simp, by simp⟩
    | hello =>
      unfold srvStep srvOnMessage
      dsimp only
      split
      · exact ⟨[], by simp, by simp⟩
      · split
        · exact ⟨[], by simp, by simp⟩
        · exact ⟨[], by simp, by simp⟩
    | response id isErr =>
      unfold srvStep srvOnMessage
      dsimp only
      split
      · exact ⟨[], by simp, by simp⟩
      · split
        · split
          · rcases settleOnce_cases id (if isErr then .remoteError else .resolved)
              { s with pending := s.pending.erase id } with hc2 | hc2
            · exact ⟨[], by rw [hc2]; simp, by simp⟩
            · refine ⟨[(id, if isErr then .remoteError else .resolved)],
                by rw [hc2], ?_⟩
              intro p hp
              rw [List.mem_singleton] at hp
              subst hp
              exact ⟨rfl, rfl⟩
          · exact ⟨[], by simp, by simp⟩
        · exact ⟨[], by simp, by simp⟩
    | otherJson =>
      unfold srvStep srvOnMessage
      dsimp only
      split
      · exact ⟨[], by simp, by simp⟩
      · split
        · exact ⟨[], by simp, by simp⟩
        · exact ⟨[], by simp, by simp⟩
  | wsClose sid code reason =>
    unfold srvStep srvOnClose
    dsimp only
    split
    · exact ⟨[], by simp, by simp⟩
    · split
      · obtain ⟨l, hl, hall⟩ := foldSettle_settled_append s.pending .disconnected
          { s with conns := s.conns.filter fun c => c.sid ≠ sid,
                   active := none, keepAliveTimer := false }
        exact ⟨l, hl, fun p hp => hall p hp⟩
      · obtain ⟨l, hl, hall⟩ := foldSettle_settled_append s.pending .disconnected
          { s with conns := s.conns.filter fun c => c.sid ≠ sid }
        exact ⟨l, hl, fun p hp => hall p hp⟩
  | watchdogFire sid =>
    unfold srvStep
    dsimp only
    repeat' split
    all_goals exact ⟨[], by simp, by simp⟩
  | callReq id openOk sendOk =>
    unfold srvStep
    dsimp only
    split
    · by_cases h2 : sendOk = true
      · rw [if_pos h2]
        split
        · exact ⟨[], by simp, by simp⟩
        · exact ⟨[], by simp, by simp⟩
      · rw [if_neg h2]
        by_cases h3 : id ∈ s.pending
        · rw [if_pos h3]
          rcases settleOnce_cases id .sendFailed { s with pending := s.pending.erase id }
            with hc2 | hc2
          · exact ⟨[], by rw [hc2]; simp, by simp⟩
          · refine ⟨[(id, .sendFailed)], by rw [hc2], ?_⟩
            intro p hp
            rw [List.mem_singleton] at hp
            subst hp
            exact ⟨rfl, by simpa using h2, rfl⟩
        · rw [if_neg h3]
          rcases settleOnce_cases id .sendFailed
            { s with pending := (s.pending ++ [id]).erase id } with hc2 | hc2
          · exact ⟨[], by rw [hc2]; simp, by simp⟩
          · refine ⟨[(id, .sendFailed)], by rw [hc2], ?_⟩
            intro p hp
            rw [List.mem_singleton] at hp
            subst hp
            exact ⟨rfl, by simpa using h2, rfl⟩
    · exact ⟨[], by simp, by simp⟩
  | callTimeout id =>
    unfold srvStep
    dsimp only
    split
    · rcases settleOnce_cases id .timedOut { s with pending := s.pending.erase id }
        with hc2 | hc2
      · exact ⟨[], by rw [hc2]; simp, by simp⟩
      · refine ⟨[(id, .timedOut)], by rw [hc2], ?_⟩
        intro p hp
        rw [List.mem_singleton] at hp
        subst hp
        exact ⟨rfl, rfl⟩
    · exact ⟨[], by simp, by simp⟩
  | bridgeClose =>
    unfold srvStep
    dsimp only
    obtain ⟨l, hl, hall⟩ := foldSettle_settled_append s.pending .bridgeClosed
      { s with keepAliveTimer := false }
    exact ⟨l, hl, fun p hp => hall p hp⟩

/-- Every step keeps the settled ids duplicate-free. -/
theorem srvStep_settled_nodup (s : SrvState) (e : SrvEvent)
    (h : (settledIds s).Nodup) : (settledIds (srvStep s e)).Nodup := by
  cases e with
  | connOpen sid =>
    unfold srvStep
    dsimp only
    split
    · exact h
    · exact h
  | wsMessage sid m =>
    unfold srvStep srvOnMessage
    dsimp only
    repeat' split
    all_goals first
      | exact h
      | exact settleOnce_nodup _ _ _ h
  | wsClose sid code reason =>
    unfold srvStep srvOnClose
    dsimp only
    repeat' split
    all_goals first
      | exact h
      | exact foldSettle_nodup _ _ _ h
  | watchdogFire sid =>
    unfold srvStep
    dsimp only
    repeat' split
    all_goals exact h
  | callReq id openOk sendOk =>
    unfold srvStep
    dsimp only
    repeat' split
    all_goals first
      | exact h
      | exact settleOnce_nodup _ _ _ h
  | callTimeout id =>
    unfold srvStep
    dsimp only
    repeat' split
    all_goals first
      | exact h
      | exact settleOnce_nodup _ _ _ h
  | bridgeClose =>
    unfold srvStep
    dsimp only
    exact foldSettle_nodup _ _ _ h

theorem srvRun_settled_nodup (events : List SrvEvent) :
    (settledIds (srvRun events)).Nodup := by
  unfold srvRun
  have hinit : (settledIds initSrv).Nodup := by simp [initSrv, settledIds]
  generalize initSrv = s0 at hinit ⊢
  induction events generalizing s0 with
  | nil => exact hinit
  | cons e es ih =>
    simp only [List.foldl_cons]
    exact ih _ (srvStep_settled_nodup s0 e hinit)

/-- A Response on the active (handshaked) socket whose id is not
pending leaves the whole state untouched. -/
theorem srvResponse_unknown_noop (s : SrvState) (sid : Nat) (id : String)
    (isErr : Bool) (c : Conn) (hc : connOf s sid = some c)
    (hhs : c.handshaked = true) (hid : id ∉ s.pending) :
    srvStep s (.wsMessage sid (.response id isErr)) = s := by
  unfold srvStep srvOnMessage
  dsimp only
  rw [hc]
  dsimp only
  rw [if_pos hhs, if_neg hid]

/-- A Response whose id is not pending never changes the pending map or
the settlements, whatever the socket's handshake state. -/
theorem srvResponse_unknown_frame (s : SrvState) (sid : Nat) (id : String)
    (isErr : Bool) (hid : id ∉ s.pending) :
    (srvStep s (.wsMessage sid (.response id isErr))).pending = s.pending ∧
      (srvStep s (.wsMessage sid (.response id isErr))).settled = s.settled := by
  unfold srvStep srvOnMessage
  dsimp only
  repeat' split
  all_goals exact ⟨rfl, rfl⟩

/-- The close handler: drains every pending call with a `disconnected`
rejection, clears the pending map, and resets the Connection only when
the closing socket is the active one. -/
theorem srvOnClose_drains (s : SrvState) (sid : Nat)
    (hconn : (connOf s sid).isSome)
    (hdisj : ∀ id ∈ s.pending, id ∉ settledIds s) :
    (srvOnClose sid s).pending = [] ∧
      (∀ id ∈ s.pending, (id, SettleReason.disconnected) ∈ (srvOnClose sid s).settled) ∧
      (s.active ≠ some sid → (srvOnClose sid s).active = s.active) := by
  obtain ⟨c0, hc0⟩ := Option.isSome_iff_exists.mp hconn
  unfold srvOnClose
  rw [hc0]
  dsimp only
  split
  · rename_i hact
    refine ⟨rfl, ?_, ?_⟩
    · intro id hid
      exact foldSettle_mem _ _ _ id hid (hdisj id hid)
    · intro hne
      exact absurd hact hne
  · refine ⟨rfl, ?_, ?_⟩
    · intro id hid
      exact foldSettle_mem _ _ _ id hid (hdisj id hid)
    · intro _
      rw [foldSettle_active]

/-- `find?` on a sid-preserving per-connection update commutes with the
update. -/
theorem find_map_sid_pres (l : List Conn) (g : Conn → Conn)
    (hg : ∀ c, (g c).sid = c.sid) (t : Nat) :
    (l.map g).find? (fun c => c.sid = t) = (l.find? fun c => c.sid = t).map g := by
  induction l with
  | nil => simp
  | cons c cs ih =>
    simp only [List.map_cons, List.find?_cons]
    by_cases hc : c.sid = t
    · have h1 : decide ((g c).sid = t) = true := by simp [hg c, hc]
      have h2 : decide (c.sid = t) = true := by simp [hc]
      rw [h1, h2]
      rfl
    · have h1 : decide ((g c).sid = t) = false := by simp [hg c, hc]
      have h2 : decide (c.sid = t) = false := by simp [hc]
      rw [h1, h2]
      exact ih

theorem find_append_single (l : List Conn) (x : Conn) (t : Nat)
    (h : l.find? (fun c => c.sid = t) = none) :
    (l ++ [x]).find? (fun c => c.sid = t) =
      if x.sid = t then some x else none := by
  induction l with
  | nil =>
    simp only [List.nil_append, List.find?_cons, List.find?_nil]
    by_cases hx : x.sid = t
    · rw [if_pos hx]
      have : decide (x.sid = t) = true := by simp [hx]
      rw [this]
    · rw [if_neg hx]
      have : decide (x.sid = t) = false := by simp [hx]
      rw [this]
  | cons c cs ih =>
    simp only [List.cons_append, List.find?_cons] at h ⊢
    by_cases hc : c.sid = t
    · rw [show decide (c.sid = t) = true by simp [hc]] at h
      exact absurd h (by simp)
    · rw [show decide (c.sid = t) = false by simp [hc]] at h ⊢
      exact ih h

/-- The effect of a valid Hello on an un-handshaked socket while
another Connection is active. -/
theorem srvHello_replaces (s : SrvState) (old new : Nat) (c : Conn)
    (hact : s.active = some old) (hconn : connOf s new = some c)
    (hhs : c.handshaked = false) :
    srvStep s (.wsMessage new .hello) =
      { s with
        active := some new,
        conns := s.conns.map fun c' =>
          if c'.sid = new then { c' with handshaked := true, watchdogArmed := false }
          else c',
        closes := s.closes ++ [(old, 4000, "Replaced by new connection")],
        keepAliveTimer := true } := by
  unfold srvStep srvOnMessage
  dsimp only
  rw [hconn]
  dsimp only
  rw [if_neg (by simp [hhs]), hact]

/-- **C2**: a valid Hello on a new socket while another Connection is
active closes the prior socket with the `Replaced by new connection`
reason (code 4000), makes the new socket the sole active Connection,
leaves the pending map untouched, and — once the superseded socket's
close event fires — every pending call is rejected with the
`disconnected` error and the pending map is emptied. -/
theorem claim2_single_active_replacement (s : SrvState) (old new : Nat) (c : Conn)
    (hact : s.active = some old) (hconn : connOf s new = some c)
    (hhs : c.handshaked = false) (_hne : old ≠ new)
    (holdconn : (connOf s old).isSome)
    (hdisj : ∀ id ∈ s.pending, id ∉ settledIds s) :
    (srvStep s (.wsMessage new .hello)).active = some new ∧
    (srvStep s (.wsMessage new .hello)).closes =
      s.closes ++ [(old, 4000, "Replaced by new connection")] ∧
    (srvStep s (.wsMessage new .hello)).pending = s.pending ∧
    ∀ (code : Nat) (reason : String),
      (srvStep (srvStep s (.wsMessage new .hello)) (.wsClose old code reason)).pending
          = [] ∧
      ∀ id ∈ s.pending, (id, SettleReason.disconnected) ∈
        (srvStep (srvStep s (.wsMessage new .hello)) (.wsClose old code reason)).settled := by
  have hs' := srvHello_replaces s old new c hact hconn hhs
  refine ⟨by rw [hs'], by rw [hs'], by rw [hs'], ?_⟩
  intro code reason
  rw [hs']
  have hg : ∀ c' : Conn,
      ((fun c' => if c'.sid = new then
          { c' with handshaked := true, watchdogArmed := false } else c') c').sid
        = c'.sid := by
    intro c'
    dsimp only
    split <;> rfl
  have hconn' : (connOf { s with
      active := some new,
      conns := s.conns.map fun c' =>
        if c'.sid = new then { c' with handshaked := true, watchdogArmed := false }
        else c',
      closes := s.closes ++ [(old, 4000, "Replaced by new connection")],
      keepAliveTimer := true } old).isSome := by
    unfold connOf
    dsimp only
    rw [find_map_sid_pres _ _ hg old]
    obtain ⟨c0, hc0⟩ := Option.isSome_iff_exists.mp holdconn
    unfold connOf at hc0
    rw [hc0]
    rfl
  have h := srvOnClose_drains _ old hconn' hdisj
  exact ⟨h.1, h.2.1⟩

/-- Witness for C2 at a concrete state. -/
theorem claim2_single_active_replacement_witness :
    (srvStep srvExampleHs (.wsMessage 2 .hello)).active = some 2 ∧
    (srvStep srvExampleHs (.wsMessage 2 .hello)).closes =
      srvExampleHs.closes ++ [(1, 4000, "Replaced by new connection")] ∧
    (srvStep srvExampleHs (.wsMessage 2 .hello)).pending = srvExampleHs.pending ∧
    ∀ (code : Nat) (reason : String),
      (srvStep (srvStep srvExampleHs (.wsMessage 2 .hello)) (.wsClose 1 code reason)).pending
          = [] ∧
      ∀ id ∈ srvExampleHs.pending, (id, SettleReason.disconnected) ∈
        (srvStep (srvStep srvExampleHs (.wsMessage 2 .hello)) (.wsClose 1 code reason)).settled :=
  claim2_single_active_replacement srvExampleHs 1 2
    { sid := 2, handshaked := false, watchdogArmed := true,
      watchdogDelayMs := handshakeTimeoutMs }
    (by decide) (by decide) (by decide) (by decide) (by decide) (by decide)

/-- **C10**: the pending-call map is not scoped to the closing socket:
when a superseded, no-longer-active socket's close event fires while
calls are outstanding on the new active connection, the handler keeps
the new Connection active yet rejects and removes every entry of the
shared pending map. -/
theorem claim10_close_drains_shared_map (s : SrvState) (old n : Nat)
    (hact : s.active = some n) (hne : old ≠ n) (hconn : (connOf s old).isSome)
    (hdisj : ∀ id ∈ s.pending, id ∉ settledIds s) (code : Nat) (reason : String) :
    (srvStep s (.wsClose old code reason)).active = some n ∧
    (srvStep s (.wsClose old code reason)).pending = [] ∧
    ∀ id ∈ s.pending, (id, SettleReason.disconnected) ∈
      (srvStep s (.wsClose old code reason)).settled := by
  have h := srvOnClose_drains s old hconn hdisj
  have hne' : s.active ≠ some old := by
    rw [hact]
    intro hx
    exact hne (Option.some.inj hx).symm
  have hactive := h.2.2 hne'
  exact ⟨by rw [show (srvStep s (.wsClose old code reason)) = srvOnClose old s from rfl,
           hactive, hact], h.1, h.2.1⟩

/-- Witness for C10 at a concrete state: socket 2 is active with two
outstanding calls; the superseded socket 1 closes and both calls are
rejected while socket 2 stays active. -/
theorem claim10_close_drains_shared_map_witness :
    (srvStep srvExample2 (.wsClose 1 4000 "Replaced by new connection")).active = some 2 ∧
    (srvStep srvExample2 (.wsClose 1 4000 "Replaced by new connection")).pending = [] ∧
    ∀ id ∈ srvExample2.pending, (id, SettleReason.disconnected) ∈
      (srvStep srvExample2 (.wsClose 1 4000 "Replaced by new connection")).settled :=
  claim10_close_drains_shared_map srvExample2 1 2 (by decide) (by decide) (by decide)
    (by decide) 4000 "Replaced by new connection"

/-- **C1**: per-call correlation: each call settles at most once
(settled ids stay duplicate-free over any trace); every settlement a
step performs is caused by a Response bearing that call's own id, the
call's own timeout, its send failure, or connection loss; a Response on
the active handshaked socket whose id is unknown is discarded without
changing anything; and an unknown-id Response never changes the pending
map or the settlements. -/
theorem claim1_rpc_correlation :
    (∀ events : List SrvEvent, (callIds events).Nodup →
      (settledIds (srvRun events)).Nodup) ∧
    (∀ (s : SrvState) (e : SrvEvent), ∀ p ∈ newSettled s e, settleCause e p) ∧
    (∀ (s : SrvState) (sid : Nat) (id : String) (isErr : Bool) (c : Conn),
      connOf s sid = some c → c.handshaked = true → id ∉ s.pending →
        srvStep s (.wsMessage sid (.response id isErr)) = s) ∧
    (∀ (s : SrvState) (sid : Nat) (id : String) (isErr : Bool), id ∉ s.pending →
      (srvStep s (.wsMessage sid (.response id isErr))).pending = s.pending ∧
        (srvStep s (.wsMessage sid (.response id isErr))).settled = s.settled) := by
  refine ⟨fun events _ => srvRun_settled_nodup events, ?_,
    fun s sid id isErr c hc hhs hid => srvResponse_unknown_noop s sid id isErr c hc hhs hid,
    fun s sid id isErr hid => srvResponse_unknown_frame s sid id isErr hid⟩
  intro s e p hp
  obtain ⟨l, hl, hall⟩ := srvStep_settled_append s e
  unfold newSettled at hp
  rw [hl, List.drop_left] at hp
  exact hall p hp

/-- Witness for C1 at concrete traces and states. -/
theorem claim1_rpc_correlation_witness :
    (settledIds (srvRun [.connOpen 1, .wsMessage 1 .hello, .callReq "a" true true,
      .wsMessage 1 (.response "a" false)])).Nodup ∧
    srvStep srvExample (.wsMessage 1 (.response "zz" false)) = srvExample ∧
    ∀ p ∈ newSettled srvExample (.wsMessage 1 (.response "a" false)),
      settleCause (.wsMessage 1 (.response "a" false)) p :=
  ⟨claim1_rpc_correlation.1 _ (by decide),
   claim1_rpc_correlation.2.2.1 srvExample 1 "zz" false
     { sid := 1, handshaked := true, watchdogArmed := false,
       watchdogDelayMs := handshakeTimeoutMs } (by decide) (by decide) (by decide),
   claim1_rpc_correlation.2.1 srvExample (.wsMessage 1 (.response "a" false))⟩

/-- **C4** (corrected), counterexample to the original claim: the
server's handshake watchdog is 5000 ms, not 8 seconds. -/
theorem claim4_counterexample : handshakeTimeoutMs = 5000 ∧ handshakeTimeoutMs ≠ 8000 := by
  decide

/-- **C4** (amended): on each new inbound connection the server starts
a handshake watchdog of fixed duration 5 seconds; a first message that
is valid JSON but not a Hello closes the socket with the
`Invalid hello` reason (code 4002) and creates no Connection; if no
Hello arrives before the watchdog fires, the socket is closed with the
`Handshake timeout` reason (code 4001) and no Connection is created;
a first frame that is not valid JSON is ignored entirely (the watchdog
stays armed). -/
theorem claim4_handshake_watchdog :
    handshakeTimeoutMs = 5000 ∧
    (∀ (s : SrvState) (sid : Nat), connOf s sid = none →
      connOf (srvStep s (.connOpen sid)) sid =
        some { sid := sid, handshaked := false, watchdogArmed := true,
               watchdogDelayMs := handshakeTimeoutMs } ∧
      (srvStep s (.connOpen sid)).active = s.active) ∧
    (∀ (s : SrvState) (sid : Nat) (c : Conn) (m : SrvMsg),
      connOf s sid = some c → c.handshaked = false →
      (m = SrvMsg.otherJson ∨ ∃ id isErr, m = SrvMsg.response id isErr) →
      (srvStep s (.wsMessage sid m)).closes = s.closes ++ [(sid, 4002, "Invalid hello")] ∧
      (srvStep s (.wsMessage sid m)).active = s.active ∧
      (srvStep s (.wsMessage sid m)).conns = s.conns) ∧
    (∀ (s : SrvState) (sid : Nat) (c : Conn),
      connOf s sid = some c → c.watchdogArmed = true → c.handshaked = false →
      (srvStep s (.watchdogFire sid)).closes =
        s.closes ++ [(sid, 4001, "Handshake timeout")] ∧
      (srvStep s (.watchdogFire sid)).active = s.active) ∧
    (∀ (s : SrvState) (sid : Nat), srvStep s (.wsMessage sid .notJson) = s) := by
  refine ⟨rfl, ?_, ?_, ?_, ?_⟩
  · intro s sid h
    unfold srvStep
    dsimp only
    rw [h]
    dsimp only
    constructor
    · unfold connOf at h ⊢
      dsimp only
      rw [find_append_single _ _ _ h, if_pos rfl]
    · rfl
  · intro s sid c m hc hhs hm
    rcases hm with rfl | ⟨id, isErr, rfl⟩
    · unfold srvStep srvOnMessage
      dsimp only
      rw [hc]
      dsimp only
      rw [if_neg (by simp [hhs])]
      exact ⟨rfl, rfl, rfl⟩
    · unfold srvStep srvOnMessage
      dsimp only
      rw [hc]
      dsimp only
      rw [if_neg (by simp [hhs])]
      exact ⟨rfl, rfl, rfl⟩
  · intro s sid c hc harm hhs
    unfold srvStep
    dsimp only
    rw [hc]
    dsimp only
    rw [if_pos harm, if_neg (by simp [hhs])]
    exact ⟨rfl, rfl⟩
  · intro s sid
    unfold srvStep srvOnMessage
    dsimp only
    split
    · rfl
    · rfl

/-- Witness for C4's amended claim at concrete states. -/
theorem claim4_handshake_watchdog_witness :
    connOf (srvStep initSrv (.connOpen 7)) 7 =
      some { sid := 7, handshaked := false, watchdogArmed := true,
             watchdogDelayMs := handshakeTimeoutMs } ∧
    (srvStep srvExampleHs (.wsMessage 2 .otherJson)).closes =
      srvExampleHs.closes ++ [(2, 4002, "Invalid hello")] ∧
    (srvStep srvExampleHs (.watchdogFire 2)).closes =
      srvExampleHs.closes ++ [(2, 4001, "Handshake timeout")] :=
  ⟨(claim4_handshake_watchdog.2.1 initSrv 7 (by decide)).1,
   (claim4_handshake_watchdog.2.2.1 srvExampleHs 2
     { sid := 2, handshaked := false, watchdogArmed := true,
       watchdogDelayMs := handshakeTimeoutMs } .otherJson
     (by decide) (by decide) (Or.inl rfl)).1,
   (claim4_handshake_watchdog.2.2.2.1 srvExampleHs 2
     { sid := 2, handshaked := false, watchdogArmed := true,
       watchdogDelayMs := handshakeTimeoutMs }
     (by decide) (by decide) (by decide)).1⟩

end WsBridge

/-! ### BridgeClient: state-machine lemmas and claims -/

namespace BridgeClient

/-- `disconnect()` always lands in `Disconnected`. -/
theorem clientDisconnect_state (preserve closeFails : Bool) (s : ClientState) :
    (clientDisconnect preserve closeFails s).connectionState = .disconnected := by
  unfold clientDisconnect
  dsimp only
  repeat' split
  all_goals rfl

/-- `disconnect()` does not touch the auto-reconnect supervisor
fields. -/
theorem clientDisconnect_auto (preserve closeFails : Bool) (s : ClientState) :
    (clientDisconnect preserve closeFails s).autoEnabled = s.autoEnabled ∧
      (clientDisconnect preserve closeFails s).autoOptsPresent = s.autoOptsPresent := by
  unfold clientDisconnect
  dsimp only
  repeat' split
  all_goals exact ⟨rfl, rfl⟩

theorem scheduleAuto_lastError (ms : Nat) (s : ClientState) :
    (scheduleAuto ms s).lastError = s.lastError := by
  unfold scheduleAuto
  split <;> rfl

theorem scheduleAuto_connState (ms : Nat) (s : ClientState) :
    (scheduleAuto ms s).connectionState = s.connectionState := by
  unfold scheduleAuto
  split <;> rfl

/-- `connect()` with the sandbox transport available and a successful
registration, from `Disconnected`, in closed form. -/
theorem clientConnect_sys (env : ConnectEnv) (now : Nat) (s : ClientState)
    (hrt : env.runtime = none) (hsys : env.hasSysWs = true)
    (hreg : env.registerFails = false) (hdisc : s.connectionState = .disconnected) :
    clientConnect env now s =
      { s with handshakeOk := false, handshakeTimer := false,
               lastServerRequestAt := none, transport := .sysWs,
               lastError := none, registeredUrl := some env.serverUrl,
               capturedUrl := env.serverUrl, connectionState := .connecting,
               connectTimer := true } := by
  unfold clientConnect
  dsimp only
  rw [hrt]
  dsimp only
  rw [if_neg (by simp)]
  rw [hsys]
  rw [if_pos rfl]
  rw [if_neg (by simp), if_neg (by simp [hdisc]), if_pos rfl, if_neg (by simp [hreg])]

/-- A preserving disconnect with a successful close keeps `lastError`. -/
theorem clientDisconnect_preserve (s : ClientState) :
    (clientDisconnect true false s).lastError = s.lastError := by
  unfold clientDisconnect
  dsimp only
  repeat' split
  all_goals first
    | rfl
    | simp_all

/-- A non-preserving disconnect clears `lastError`. -/
theorem clientDisconnect_clears (closeFails : Bool) (s : ClientState) :
    (clientDisconnect false closeFails s).lastError = none := by
  unfold clientDisconnect
  dsimp only
  repeat' split
  all_goals first
    | rfl
    | simp_all

/-- `connect()` never makes the state `Connected`. -/
theorem clientConnect_connected (env : ConnectEnv) (now : Nat) (s : ClientState)
    (h : (clientConnect env now s).connectionState = .connected) :
    s.connectionState = .connected := by
  unfold clientConnect at h
  dsimp only at h
  repeat' split at h
  all_goals first
    | exact h
    | assumption
    | simp_all

/-- **C3**: the connection state becomes `Connected` only on an inbound
message that decodes as a valid RPC Request; in particular the socket
open/connected callbacks of both transports never change the connection
state at all. -/
theorem claim3_connected_only_on_request :
    (∀ (s : ClientState) (now : Nat) (hf : Bool),
      (clientStep s (.sysConnected now hf)).connectionState = s.connectionState) ∧
    (∀ (s : ClientState) (now : Nat),
      (clientStep s (.gOpen now)).connectionState = s.connectionState) ∧
    (∀ (s : ClientState) (e : ClientEvent),
      (clientStep s e).connectionState = .connected →
        s.connectionState = .connected ∨
          ∃ id method now, e = .sysMessage (.request id method) now ∨
            e = .gMessage (.request id method) now) := by
  refine ⟨?_, ?_, ?_⟩
  · intro s now hf
    unfold clientStep sysOnConnected
    dsimp only
    split <;> rfl
  · intro s now
    rfl
  · intro s e h
    cases e with
    | connectCall env now => exact Or.inl (clientConnect_connected env now s h)
    | sysConnected now hf =>
      left
      unfold clientStep sysOnConnected at h
      dsimp only at h
      split at h <;> exact h
    | sysMessage m now =>
      cases m with
      | invalidJson => exact Or.inl h
      | nonRequest => exact Or.inl h
      | request id method => exact Or.inr ⟨id, method, now, Or.inl rfl⟩
    | gOpen now => exact Or.inl h
    | gMessage m now =>
      cases m with
      | invalidJson => exact Or.inl h
      | nonRequest => exact Or.inl h
      | request id method => exact Or.inr ⟨id, method, now, Or.inr rfl⟩
    | gError => exact Or.inl h
    | gClose code reason =>
      left
      unfold clientStep globalOnClose at h
      dsimp only at h
      exact absurd h (by simp)
    | sysConnectTimeout =>
      left
      unfold clientStep sysConnectTimeoutFire at h
      dsimp only at h
      repeat' split at h
      all_goals first
        | exact h
        | assumption
        | simp_all
    | gConnectTimeout =>
      left
      unfold clientStep globalConnectTimeoutFire at h
      dsimp only at h
      repeat' split at h
      all_goals first
        | exact h
        | assumption
        | simp_all
    | handshakeWatchdog closeFails =>
      left
      unfold clientStep watchdogFire clientDisconnect at h
      dsimp only at h
      repeat' split at h
      all_goals first
        | exact h
        | assumption
        | simp_all
    | userDisconnect preserve closeFails =>
      left
      rw [show clientStep s (.userDisconnect preserve closeFails)
          = clientDisconnect preserve closeFails s from rfl,
        clientDisconnect_state] at h
      exact absurd h (by simp)
    | supervisorTick env now cfg =>
      left
      unfold clientStep autoTick at h
      dsimp only at h
      split at h
      · exact h
      · split at h
        · exact h
        · split at h
          · -- staleness fired: the guard itself says the state was Connected
            rename_i hcond
            exact hcond.1
          · split at h
            · assumption
            · split at h
              · rw [scheduleAuto_connState] at h
                exact h
              · split at h
                · rw [scheduleAuto_connState] at h
                  exact h
                · replace h : (scheduleAuto (clientConnect env now s).autoBackoffMs
                    (clientConnect env now s)).connectionState = ConnState.connected := h
                  rw [scheduleAuto_connState] at h
                  exact clientConnect_connected env now s h
    | startAuto => exact Or.inl h
    | stopAuto => exact Or.inl h

/-- Witness for C3 at a concrete connecting state: the open event alone
leaves the state `connecting`; a request message event satisfies the
disjunction. -/
theorem claim3_connected_only_on_request_witness :
    (clientStep clientAwaitingHs (.sysConnected 5 false)).connectionState =
      clientAwaitingHs.connectionState ∧
    (clientAwaitingHs.connectionState = .connected ∨
      ∃ id method now,
        (ClientEvent.sysMessage (.request "1" "ping") 5)
            = .sysMessage (.request id method) now ∨
          (ClientEvent.sysMessage (.request "1" "ping") 5)
            = .gMessage (.request id method) now) :=
  ⟨claim3_connected_only_on_request.1 clientAwaitingHs 5 false,
   claim3_connected_only_on_request.2.2 clientAwaitingHs
     (.sysMessage (.request "1" "ping") 5) (by decide)⟩

/-- One failed-attempt supervisor tick in closed form. -/
theorem tickFail_closed (b d : Nat) :
    clientStep (failTickState b d) (.supervisorTick failEnv 0 true) =
      failTickState (nextBackoff b) b := rfl

theorem tickIter_succ_right (env : ConnectEnv) (n : Nat) (s : ClientState) :
    tickIter env (n + 1) s =
      clientStep (tickIter env n s) (.supervisorTick env 0 true) := by
  induction n generalizing s with
  | zero => rfl
  | succ m ih =>
    show tickIter env (m + 1) (clientStep s (.supervisorTick env 0 true)) = _
    rw [ih]
    rfl

/-- Closed form of the iterated failed reconnect attempts. -/
theorem tickIter_closed (i : Nat) :
    tickIter failEnv (i + 1) (clientStep initClient .startAuto) =
      failTickState (backoffSeq (i + 1)) (backoffSeq i) := by
  induction i with
  | zero => rfl
  | succ m ih =>
    rw [tickIter_succ_right, ih, tickFail_closed]
    rfl

theorem backoffSeq_le_cap (n : Nat) : backoffSeq n ≤ autoMaxBackoffMs := by
  cases n with
  | zero => decide
  | succ m => exact Nat.min_le_right _ _

theorem backoffSeq_mono (n : Nat) : backoffSeq n ≤ backoffSeq (n + 1) := by
  show backoffSeq n ≤ nextBackoff (backoffSeq n)
  unfold nextBackoff
  refine le_min ?_ (backoffSeq_le_cap n)
  calc backoffSeq n = backoffSeq n * 5 / 5 := (Nat.mul_div_cancel _ (by norm_num)).symm
    _ ≤ backoffSeq n * 8 / 5 := Nat.div_le_div_right (by omega)

/-- **C5**: starting from the base delay 1500 ms and stepping by
`min(floor(delay * 1.6), 30000)` after each consecutive failed
reconnect attempt, the delays the supervisor re-arms over the first six
attempts are exactly 1500, 2400, 3840, 6144, 9830, 15728; the delay
after attempt `n+1` is `backoffSeq n`, and that sequence is
non-decreasing and never exceeds 30000 ms. -/
theorem claim5_backoff_sequence :
    ((List.range 6).map fun i =>
      (tickIter failEnv (i + 1) (clientStep initClient .startAuto)).autoTimer) =
      [some 1500, some 2400, some 3840, some 6144, some 9830, some 15728] ∧
    (∀ i, (tickIter failEnv (i + 1) (clientStep initClient .startAuto)).autoTimer =
      some (backoffSeq i)) ∧
    (∀ n, backoffSeq n ≤ backoffSeq (n + 1)) ∧
    (∀ n, backoffSeq n ≤ autoMaxBackoffMs) := by
  refine ⟨by decide, ?_, backoffSeq_mono, backoffSeq_le_cap⟩
  intro i
  rw [tickIter_closed]
  rfl

/-- **C6** (corrected), counterexample to the original claim: with the
client Connected and the last observed server traffic 61001 ms old
(above the 60 s staleness threshold), the staleness-triggered
supervisor tick disconnects — the state leaves `Connected` — yet
`lastError` (the field the status snapshot projects) ends up `none`:
the cause string set by the staleness branch is erased, because the
branch calls `disconnect()` without `preserveLastError` and the
follow-up `connect()` clears `#lastError` again. -/
theorem claim6_counterexample :
    clientStaleState.connectionState = ConnState.connected ∧
    (61002 : Nat) - 1 > staleThresholdMs ∧
    (clientStep clientStaleState (.supervisorTick sysEnv 61002 true)).connectionState ≠
      ConnState.connected ∧
    (clientStep clientStaleState (.supervisorTick sysEnv 61002 true)).lastError = none := by
  refine ⟨by decide, by decide, by decide, by decide⟩

/-- **C6** (amended): a handshake-watchdog-triggered disconnect
preserves the cause: after the watchdog fires on an unconfirmed
handshake, the state is `Disconnected` and `lastError` still holds the
handshake-timeout message.  A plain user-initiated `disconnect()`
clears the transient error.  A staleness-triggered disconnect does
*not* preserve the cause: the tick ends with `lastError = none` (the
staleness branch calls `disconnect()` without `preserveLastError`, and
the immediate reconnect clears the field again). -/
theorem claim6_error_preservation :
    (∀ s : ClientState, s.handshakeTimer = true → s.handshakeOk = false →
      (clientStep s (.handshakeWatchdog false)).connectionState = .disconnected ∧
      (clientStep s (.handshakeWatchdog false)).lastError =
        some (handshakeTimeoutMsg s.capturedUrl)) ∧
    (∀ (s : ClientState) (closeFails : Bool),
      (clientStep s (.userDisconnect false closeFails)).lastError = none ∧
      (clientStep s (.userDisconnect false closeFails)).connectionState = .disconnected) ∧
    (∀ (s : ClientState) (t now : Nat),
      s.connectionState = .connected → s.lastServerRequestAt = some t → t ≠ 0 →
      now - t > staleThresholdMs → s.autoEnabled = true → s.autoOptsPresent = true →
      (clientStep s (.supervisorTick sysEnv now true)).lastError = none ∧
      (clientStep s (.supervisorTick sysEnv now true)).connectionState = .connecting) := by
  refine ⟨?_, ?_, ?_⟩
  · intro s htimer hok
    have hfire : clientStep s (.handshakeWatchdog false) =
        clientDisconnect true false
          { s with handshakeTimer := false,
                   lastError := some (handshakeTimeoutMsg s.capturedUrl) } := by
      unfold clientStep watchdogFire
      dsimp only
      rw [if_pos htimer, if_neg (by simp [hok])]
    rw [hfire]
    exact ⟨clientDisconnect_state _ _ _, by rw [clientDisconnect_preserve]⟩
  · intro s closeFails
    exact ⟨clientDisconnect_clears closeFails s, clientDisconnect_state _ _ _⟩
  · intro s t now hconn htraffic ht hstale henab hopts
    unfold clientStep autoTick
    dsimp only
    rw [if_neg (by simp [henab]), if_neg (by simp)]
    have hcond : s.connectionState = ConnState.connected ∧
        s.lastServerRequestAt.getD 0 ≠ 0 ∧
        now - s.lastServerRequestAt.getD 0 > staleThresholdMs :=
      ⟨hconn, by rw [htraffic]; exact ht, by rw [htraffic]; exact hstale⟩
    rw [if_pos hcond]
    set s1 := clientDisconnect false false
      { s with lastError := some (staleMsg (now - s.lastServerRequestAt.getD 0)) }
      with hs1
    have h1 : s1.connectionState = .disconnected := clientDisconnect_state _ _ _
    have h2 : s1.autoOptsPresent = true := by
      rw [hs1, (clientDisconnect_auto _ _ _).2]
      exact hopts
    rw [if_neg (by simp [h1]), if_neg (by simp [h1]), if_neg (by simp [h2])]
    have hcc := clientConnect_sys sysEnv now s1 rfl rfl rfl h1
    constructor
    · show (scheduleAuto (clientConnect sysEnv now s1).autoBackoffMs
        (clientConnect sysEnv now s1)).lastError = none
      rw [scheduleAuto_lastError, hcc]
    · show (scheduleAuto (clientConnect sysEnv now s1).autoBackoffMs
        (clientConnect sysEnv now s1)).connectionState = ConnState.connecting
      rw [scheduleAuto_connState, hcc]

/-- Witness for C6's amended claim at concrete states. -/
theorem claim6_error_preservation_witness :
    ((clientStep clientAwaitingHs (.handshakeWatchdog false)).connectionState =
        ConnState.disconnected ∧
      (clientStep clientAwaitingHs (.handshakeWatchdog false)).lastError =
        some (handshakeTimeoutMsg clientAwaitingHs.capturedUrl)) ∧
    ((clientStep clientStaleState (.userDisconnect false false)).lastError = none) ∧
    ((clientStep clientStaleState (.supervisorTick sysEnv 61002 true)).lastError = none ∧
      (clientStep clientStaleState (.supervisorTick sysEnv 61002 true)).connectionState =
        ConnState.connecting) :=
  ⟨claim6_error_preservation.1 clientAwaitingHs (by decide) (by decide),
   (claim6_error_preservation.2.1 clientStaleState false).1,
   claim6_error_preservation.2.2 clientStaleState 1 61002 (by decide) (by decide)
     (by decide) (by decide) (by decide) (by decide)⟩

end BridgeClient

end JlcHelper
